import Mathlib

/-!
LIS2MDL magnetometer driver: a shallow embedding of `src/LIS2MDL.cpp`.

The driver talks to the sensor through the Arduino `Wire` (I2C) and `SPI`
libraries.  Everything those libraries hand back is taken from an oracle
(`Env`), indexed by the number of transport calls made so far; the driver's
own state (`Device`) and a ghost record of the transport calls (`Bus`) are
passed explicitly.

Machine integers are `Nat`/`Int` with explicit wrap-around.  `float` values
are exact rationals, with `none` standing for the non-finite result of a
division by zero (rounding is not modelled).
-/

namespace LIS2MDL

/-! ## What the header and the toolchain fix -/

/-- Constants and widths that `LIS2MDL.h` and the target fix; the header is not
among the sources, so they are parameters of the model. -/
structure Header where
  /-- width of `int` in bits -/
  intBits : Nat
  /-- width in bits of the two diagnostic counters -/
  counterBits : Nat
  deviceId : Nat
  LIS2MDL_WHO_AM_I : Nat
  LIS2MDL_CFG_REG_A : Nat
  LIS2MDL_CFG_REG_B : Nat
  LIS2MDL_CFG_REG_C : Nat
  LIS2MDL_OUTX_L_REG : Nat
  LIS2MDL_OUTY_L_REG : Nat
  LIS2MDL_OUTZ_L_REG : Nat

/-- Modelled from the spec: the status enumeration `mag_status_t` of `LIS2MDL.h`.
The three named values are the spec's error taxonomy and the only ones the
source file mentions; `MAG_UNLISTED` stands for any further value the
enumeration may hold. -/
inductive mag_status_t where
  | MAG_SUCCESS
  | MAG_HW_ERROR
  | MAG_ALL_ONES_WARNING
  | MAG_UNLISTED (code : Nat)
  deriving DecidableEq, Repr

open mag_status_t

/-- The value of `commMode`: one of the two `case` labels of the source's
switches, or any other byte (no label matches). -/
inductive CommMode where
  | I2C_MODE
  | SPI_MODE
  | unmatched
  deriving DecidableEq, Repr

/-- A `float`: an exact rational, or `none` for a non-finite value. -/
abbrev FloatVal := Option ℚ

/-- `float * float`. -/
def fmul (a b : FloatVal) : FloatVal :=
  match a, b with
  | some x, some y => some (x * y)
  | _, _ => none

/-- `float - float`. -/
def fsub (a b : FloatVal) : FloatVal :=
  match a, b with
  | some x, some y => some (x - y)
  | _, _ => none

/-- `float / float`; a zero divisor gives a non-finite value. -/
def fdiv (a b : FloatVal) : FloatVal :=
  match a, b with
  | some x, some y => if y = 0 then none else some (x / y)
  | _, _ => none

/-- Conversion `(float) n` of an integer. -/
def ofInt (n : Int) : FloatVal := some (n : ℚ)

/-- The fields of `settings` that the source file reads or writes. -/
structure Settings where
  tempCompensationEnabled : Nat
  rebootMode : Nat
  resetMode : Nat
  powerMode : Nat
  magSampleRate : Nat
  operationMode : Nat
  singleModeOffsetCancellationEnabled : Nat
  checkDataAfterHardIronCorrectionEnabled : Nat
  setPulseFrequency : Nat
  offsetCancellationEnabled : Nat
  lowPassFilterEnabled : Nat
  interruptEnabled : Nat
  i2cDisabled : Nat
  readSafety : Nat
  endianness : Nat
  spiConfig : Nat
  selfTestEnabled : Nat
  dataReadyEnabled : Nat
  magSensitivity : FloatVal
  magBiasX : FloatVal
  magBiasY : FloatVal
  magBiasZ : FloatVal
  magScaleX : FloatVal
  magScaleY : FloatVal
  magScaleZ : FloatVal

/-- The driver object. -/
structure Device where
  commMode : CommMode
  address : Nat
  settings : Settings
  allOnesCounter : Nat
  nonSuccessCounter : Nat

/-! ## The outside world -/

/-- What the outside world contributes to one transport call. -/
structure Exchange where
  /-- value `Wire.endTransmission()` returns -/
  endTransmission : Nat
  /-- bytes `Wire` holds after `Wire.requestFrom`, in order -/
  wireBytes : List Nat
  /-- byte the `i`-th `SPI.transfer(0x00)` of the call returns -/
  spiBytes : Nat → Nat
  /-- content of the caller's uninitialised local buffer before the call -/
  stale : Nat → Nat
  /-- value the caller receives from `readRegion`, whose body has no `return` -/
  yielded : mag_status_t

/-- The oracle: the exchange that goes with the `n`-th transport call. -/
abbrev Env := Nat → Exchange

/-- A transport call, as recorded in the ghost log. -/
inductive Call where
  | write (offset data : Nat)
  | readRegion (offset length : Nat)
  deriving DecidableEq, Repr

/-- Ghost state: how many transport calls were made, which ones, and the total
time passed to `delay`. -/
structure Bus where
  calls : Nat
  log : List Call
  elapsed : Nat

/-! ## Machine integers -/

/-- Two's-complement value of the low `w` bits of `x`. -/
def wrapSigned (w : Nat) (x : Int) : Int :=
  (x + 2 ^ (w - 1)) % 2 ^ w - 2 ^ (w - 1)

/-- Conversion to `int16_t`. -/
def toInt16 (x : Int) : Int := wrapSigned 16 x

/-- Conversion to `int32_t`. -/
def toInt32 (x : Int) : Int := wrapSigned 32 x

/-! ## Transport -/

/-- Result of `readRegion`: the new state, the caller's buffer, and the final
value of the local variable `status`, which the source computes and never
returns. -/
structure RegionResult where
  dev : Device
  bus : Bus
  output : Nat → Nat
  status : mag_status_t

/-- The I2C receive loop `while (Wire.available() && i < length)`. -/
def wireLoop (length : Nat) : List Nat → Nat → (Nat → Nat) → (Nat → Nat)
  | [], _, output => output
  | c :: rest, i, output =>
    if i < length then wireLoop length rest (i + 1) (Function.update output i (c % 256))
    else output

/-- Body of the SPI receive loop at index `i`, on the pair
(`allOnesCounter`, buffer). -/
def spiBody (h : Header) (x : Exchange) (acc : Nat × (Nat → Nat)) (i : Nat) :
    Nat × (Nat → Nat) :=
  let c := x.spiBytes i % 256
  (if c = 0xFF then (acc.1 + 1) % 2 ^ h.counterBits else acc.1, Function.update acc.2 i c)

/-- The SPI receive loop `while (i < length)`, `i` running from `0`. -/
def spiLoop (h : Header) (x : Exchange) (allOnesCounter : Nat) (output : Nat → Nat)
    (length : Nat) : Nat × (Nat → Nat) :=
  (List.range length).foldl (spiBody h x) (allOnesCounter, output)

/-- `LIS2MDL::readRegion`.  `length` is a `uint8_t`; the callers pass `1` and
`2`.  The body ends without a `return` statement: the field `status` of the
result is the last value of the local variable `status`, and what a caller
receives is `Exchange.yielded`. -/
def readRegion (h : Header) (env : Env) (d : Device) (b : Bus) (offset : Nat)
    (output : Nat → Nat) (length : Nat) : RegionResult :=
  let x := env b.calls
  let b1 : Bus := { b with calls := b.calls + 1, log := b.log ++ [Call.readRegion offset length] }
  match d.commMode with
  | CommMode.I2C_MODE =>
    if x.endTransmission ≠ 0 then
      { dev := d, bus := b1, output := output, status := MAG_HW_ERROR }
    else
      { dev := d, bus := b1, output := wireLoop length x.wireBytes 0 output, status := MAG_SUCCESS }
  | CommMode.SPI_MODE =>
    let r := spiLoop h x d.allOnesCounter output length
    { dev := { d with allOnesCounter := r.1 }, bus := b1, output := r.2,
      status := if r.1 = length then MAG_ALL_ONES_WARNING else MAG_SUCCESS }
  | CommMode.unmatched =>
    { dev := d, bus := b1, output := output, status := MAG_SUCCESS }

/-- Result of `readInt16`. -/
structure Int16Result where
  value : Int
  dev : Device
  bus : Bus

/-- The expression `(int16_t)buffer[0] | int16_t(buffer[1] << 8)` stored in an
`int16_t`; the shift is carried out in `int`. -/
def assemble (h : Header) (buffer : Nat → Nat) : Int :=
  toInt16 (Int.lor (toInt16 (buffer 0)) (toInt16 (wrapSigned h.intBits ((buffer 1 : Int) * 2 ^ 8))))

/-- `LIS2MDL::readInt16`.  `result` is the value the call of `readRegion`
yields; the operator `|` on `int` is `Int.lor`. -/
def readInt16 (h : Header) (env : Env) (d : Device) (b : Bus) (offset : Nat) : Int16Result :=
  let x := env b.calls
  let r := readRegion h env d b offset (fun i => x.stale i % 256) 2
  let result := x.yielded
  let output := assemble h r.output
  let dev :=
    if result ≠ MAG_SUCCESS then
      if result = MAG_ALL_ONES_WARNING then
        { r.dev with allOnesCounter := (r.dev.allOnesCounter + 1) % 2 ^ h.counterBits }
      else
        { r.dev with nonSuccessCounter := (r.dev.nonSuccessCounter + 1) % 2 ^ h.counterBits }
    else r.dev
  { value := output, dev := dev, bus := r.bus }

/-- Result of a call that hands a status back to its caller. -/
structure StatusResult where
  status : mag_status_t
  dev : Device
  bus : Bus

/-- Result of `read`: the value its `return readRegion(...)` passes on, the new
state and the caller's byte. -/
structure ReadResult where
  status : mag_status_t
  dev : Device
  bus : Bus
  output : Nat → Nat

/-- `LIS2MDL::read`: `return readRegion(offset, output, 1)`. -/
def read (h : Header) (env : Env) (d : Device) (b : Bus) (offset : Nat)
    (output : Nat → Nat) : ReadResult :=
  let r := readRegion h env d b offset output 1
  { status := (env b.calls).yielded, dev := r.dev, bus := r.bus, output := r.output }

/-- `LIS2MDL::write`; `offset` and `data` are `uint8_t` parameters. -/
def write (env : Env) (d : Device) (b : Bus) (offset data : Nat) : StatusResult :=
  let x := env b.calls
  let b1 : Bus :=
    { b with calls := b.calls + 1, log := b.log ++ [Call.write (offset % 256) (data % 256)] }
  match d.commMode with
  | CommMode.I2C_MODE =>
    { status := if x.endTransmission ≠ 0 then MAG_HW_ERROR else MAG_SUCCESS, dev := d, bus := b1 }
  | CommMode.SPI_MODE => { status := MAG_SUCCESS, dev := d, bus := b1 }
  | CommMode.unmatched => { status := MAG_SUCCESS, dev := d, bus := b1 }

/-- The compound assignment `config |= field` on a `uint8_t`. -/
def orByte (config field : Nat) : Nat := (config ||| field) % 256

/-- The byte `writeSettings` builds for register A. -/
def configA (s : Settings) : Nat :=
  let c := 0
  let c := orByte c s.tempCompensationEnabled
  let c := orByte c s.rebootMode
  let c := orByte c s.resetMode
  let c := orByte c s.powerMode
  let c := orByte c s.magSampleRate
  let c := orByte c s.operationMode
  c

/-- The byte `writeSettings` builds for register B. -/
def configB (s : Settings) : Nat :=
  let c := 0
  let c := orByte c s.singleModeOffsetCancellationEnabled
  let c := orByte c s.checkDataAfterHardIronCorrectionEnabled
  let c := orByte c s.setPulseFrequency
  let c := orByte c s.offsetCancellationEnabled
  let c := orByte c s.lowPassFilterEnabled
  c

/-- The byte `writeSettings` builds for register C. -/
def configC (s : Settings) : Nat :=
  let c := 0
  let c := orByte c s.interruptEnabled
  let c := orByte c s.i2cDisabled
  let c := orByte c s.readSafety
  let c := orByte c s.endianness
  let c := orByte c s.spiConfig
  let c := orByte c s.selfTestEnabled
  let c := orByte c s.dataReadyEnabled
  c

/-- `LIS2MDL::writeSettings`. -/
def writeSettings (h : Header) (env : Env) (d : Device) (b : Bus) : StatusResult :=
  let r := write env d b h.LIS2MDL_CFG_REG_A (configA d.settings)
  let r := if r.status = MAG_SUCCESS then
      write env r.dev r.bus h.LIS2MDL_CFG_REG_B (configB d.settings) else r
  let r := if r.status = MAG_SUCCESS then
      write env r.dev r.bus h.LIS2MDL_CFG_REG_C (configC d.settings) else r
  r

/-- `LIS2MDL::wireUp`.  The bus set-up calls and the spin loop leave the
modelled state alone; the status returned by `read` is dropped, as in the
source. -/
def wireUp (h : Header) (env : Env) (d : Device) (b : Bus) : StatusResult :=
  let r := read h env d b h.LIS2MDL_WHO_AM_I (fun i => (env b.calls).stale i % 256)
  let readCheck := r.output 0
  { status := if readCheck ≠ h.deviceId then MAG_HW_ERROR else MAG_SUCCESS,
    dev := r.dev, bus := r.bus }

/-- Result of `begin`; `ret` is `none` on the path that leaves the function
without a `return`. -/
structure BeginResult where
  ret : Option mag_status_t
  dev : Device
  bus : Bus

/-- `LIS2MDL::begin`. -/
def begin (h : Header) (env : Env) (d : Device) (b : Bus) : BeginResult :=
  let r := wireUp h env d b
  if r.status ≠ MAG_SUCCESS then
    { ret := some r.status, dev := r.dev, bus := r.bus }
  else
    let w := writeSettings h env r.dev r.bus
    { ret := none, dev := w.dev, bus := w.bus }

/-! ## Raw and calibrated reads -/

/-- `LIS2MDL::readRawMagX`. -/
def readRawMagX (h : Header) (env : Env) (d : Device) (b : Bus) : Int16Result :=
  readInt16 h env d b h.LIS2MDL_OUTX_L_REG

/-- `LIS2MDL::readRawMagY`. -/
def readRawMagY (h : Header) (env : Env) (d : Device) (b : Bus) : Int16Result :=
  readInt16 h env d b h.LIS2MDL_OUTY_L_REG

/-- `LIS2MDL::readRawMagZ`. -/
def readRawMagZ (h : Header) (env : Env) (d : Device) (b : Bus) : Int16Result :=
  readInt16 h env d b h.LIS2MDL_OUTZ_L_REG

/-- Result of a calibrated read. -/
structure FloatResult where
  value : FloatVal
  dev : Device
  bus : Bus

/-- `LIS2MDL::readFloatMagX`. -/
def readFloatMagX (h : Header) (env : Env) (d : Device) (b : Bus) : FloatResult :=
  let r := readRawMagX h env d b
  let s := r.dev.settings
  { value := fmul (fsub (fmul (ofInt r.value) s.magSensitivity) s.magBiasX) s.magScaleX,
    dev := r.dev, bus := r.bus }

/-- `LIS2MDL::readFloatMagY`. -/
def readFloatMagY (h : Header) (env : Env) (d : Device) (b : Bus) : FloatResult :=
  let r := readRawMagY h env d b
  let s := r.dev.settings
  { value := fmul (fsub (fmul (ofInt r.value) s.magSensitivity) s.magBiasY) s.magScaleY,
    dev := r.dev, bus := r.bus }

/-- `LIS2MDL::readFloatMagZ`. -/
def readFloatMagZ (h : Header) (env : Env) (d : Device) (b : Bus) : FloatResult :=
  let r := readRawMagZ h env d b
  let s := r.dev.settings
  { value := fmul (fsub (fmul (ofInt r.value) s.magSensitivity) s.magBiasZ) s.magScaleZ,
    dev := r.dev, bus := r.bus }

/-! ## Calibration -/

/-- A three-element array with the given entries at indices `0`, `1`, `2`. -/
def array3 {α : Type} (a0 a1 a2 : α) : Fin 3 → α :=
  fun j => if j.val = 0 then a0 else if j.val = 1 then a1 else a2

/-- State of the sampling loop of `calibrate`: the driver, the bus and the two
arrays of running extremes. -/
structure Sampling where
  dev : Device
  bus : Bus
  rawMagMax : Fin 3 → Int
  rawMagMin : Fin 3 → Int

/-- One pass of the outer `for` loop of `calibrate`: three raw reads, the inner
loop over the axes, `delay(12)`. -/
def calibrateBody (h : Header) (env : Env) (s : Sampling) : Sampling :=
  let rx := readRawMagX h env s.dev s.bus
  let ry := readRawMagY h env rx.dev rx.bus
  let rz := readRawMagZ h env ry.dev ry.bus
  let temp : Fin 3 → Int := array3 rx.value ry.value rz.value
  { dev := rz.dev,
    bus := { rz.bus with elapsed := rz.bus.elapsed + 12 },
    rawMagMax := fun j => if temp j > s.rawMagMax j then temp j else s.rawMagMax j,
    rawMagMin := fun j => if temp j < s.rawMagMin j then temp j else s.rawMagMin j }

/-- The outer `for` loop of `calibrate`, run for `n` passes. -/
def calibrateLoop (h : Header) (env : Env) : Nat → Sampling → Sampling
  | 0, s => s
  | n + 1, s => calibrateLoop h env n (calibrateBody h env s)

/-- The loop state `calibrate` starts from. -/
def calibrateInit (d : Device) (b : Bus) : Sampling :=
  { dev := d, bus := b, rawMagMax := fun _ => -32767, rawMagMin := fun _ => 32767 }

/-- State after the sampling loop of `calibrate`, `4000` passes. -/
def sampled (h : Header) (env : Env) (d : Device) (b : Bus) : Sampling :=
  calibrateLoop h env 4000 (calibrateInit d b)

/-- The local `rawMagBias[j]`: the sum is formed in `int`, halved by C++ integer
division and stored in an `int32_t`. -/
def rawMagBias (h : Header) (s : Sampling) (j : Fin 3) : Int :=
  toInt32 (Int.tdiv (wrapSigned h.intBits (s.rawMagMax j + s.rawMagMin j)) 2)

/-- The local `rawMagScale[j]`. -/
def rawMagScale (h : Header) (s : Sampling) (j : Fin 3) : Int :=
  toInt32 (Int.tdiv (wrapSigned h.intBits (s.rawMagMax j - s.rawMagMin j)) 2)

/-- Width of the type in which three `int32_t` values are added. -/
def sumBits (h : Header) : Nat := max h.intBits 32

/-- The local `avg_rad` after `avg_rad /= 3.0f`. -/
def avg_rad (h : Header) (s : Sampling) : FloatVal :=
  fdiv
    (ofInt (wrapSigned (sumBits h)
      (wrapSigned (sumBits h) (rawMagScale h s 0 + rawMagScale h s 1) + rawMagScale h s 2)))
    (some 3)

/-- `LIS2MDL::calibrate`; the argument `reads` is not used by the body. -/
def calibrate (h : Header) (env : Env) (d : Device) (b : Bus) (reads : Nat) : Device × Bus :=
  let _ := reads
  let s := sampled h env d b
  let st := s.dev.settings
  let st := { st with magBiasX := fmul (ofInt (rawMagBias h s 0)) st.magSensitivity }
  let st := { st with magBiasY := fmul (ofInt (rawMagBias h s 1)) st.magSensitivity }
  let st := { st with magBiasZ := fmul (ofInt (rawMagBias h s 2)) st.magSensitivity }
  let st := { st with magScaleX := fdiv (avg_rad h s) (ofInt (rawMagScale h s 0)) }
  let st := { st with magScaleY := fdiv (avg_rad h s) (ofInt (rawMagScale h s 1)) }
  let st := { st with magScaleZ := fdiv (avg_rad h s) (ofInt (rawMagScale h s 2)) }
  ({ s.dev with settings := st }, s.bus)

/-- The stored offset of axis `j` (`magBiasX`, `magBiasY`, `magBiasZ`). -/
def Settings.offset (s : Settings) (j : Fin 3) : FloatVal :=
  array3 s.magBiasX s.magBiasY s.magBiasZ j

/-- The stored scale of axis `j` (`magScaleX`, `magScaleY`, `magScaleZ`). -/
def Settings.scale (s : Settings) (j : Fin 3) : FloatVal :=
  array3 s.magScaleX s.magScaleY s.magScaleZ j


/-! ## Auxiliary definitions used to state the properties -/

/-- The oracle `env` with the value yielded to the caller of the `n`-th
transport call replaced by `s`. -/
def withYielded (env : Env) (n : Nat) (s : mag_status_t) : Env :=
  fun k => if k = n then { env k with yielded := s } else env k

/-- The raw sample `readInt16` returns when it is transport call number `n` of
the driver `d`. -/
def sampleAt (h : Header) (env : Env) (d : Device) (n : Nat) : Int :=
  (readInt16 h env d { calls := n, log := [], elapsed := 0 } 0).value

/-- The transport calls of `n` passes of the sampling loop. -/
def tripletCalls (h : Header) : Nat → List Call
  | 0 => []
  | n + 1 =>
    [Call.readRegion h.LIS2MDL_OUTX_L_REG 2, Call.readRegion h.LIS2MDL_OUTY_L_REG 2,
      Call.readRegion h.LIS2MDL_OUTZ_L_REG 2] ++ tripletCalls h n

/-- The status `write` returns when it is transport call number `n` of the
driver `d`. -/
def writeStatus (env : Env) (d : Device) (n : Nat) : mag_status_t :=
  (write env d { calls := n, log := [], elapsed := 0 } 0 0).status

/-- The byte `wireUp` finds in `readCheck` after its `read`. -/
def whoAmIByte (h : Header) (env : Env) (d : Device) (b : Bus) : Nat :=
  (read h env d b h.LIS2MDL_WHO_AM_I (fun i => (env b.calls).stale i % 256)).output 0

/-! ## Concrete inputs -/

/-- A header with the register map of the LIS2MDL data sheet, a 32-bit `int`
and 16-bit counters. -/
def hdr32 : Header :=
  { intBits := 32, counterBits := 16, deviceId := 0x40, LIS2MDL_WHO_AM_I := 0x4F,
    LIS2MDL_CFG_REG_A := 0x60, LIS2MDL_CFG_REG_B := 0x61, LIS2MDL_CFG_REG_C := 0x62,
    LIS2MDL_OUTX_L_REG := 0x68, LIS2MDL_OUTY_L_REG := 0x6A, LIS2MDL_OUTZ_L_REG := 0x6C }

/-- The same header for a target with a 16-bit `int`. -/
def hdr16 : Header := { hdr32 with intBits := 16 }

/-- Settings with sensitivity `0.0015`, offsets `0.5` and scales `2.0`. -/
def settingsEx : Settings :=
  { tempCompensationEnabled := 0x80, rebootMode := 0, resetMode := 0, powerMode := 0,
    magSampleRate := 0, operationMode := 0, singleModeOffsetCancellationEnabled := 0,
    checkDataAfterHardIronCorrectionEnabled := 0, setPulseFrequency := 0,
    offsetCancellationEnabled := 0, lowPassFilterEnabled := 1, interruptEnabled := 0,
    i2cDisabled := 0, readSafety := 0x10, endianness := 0, spiConfig := 0,
    selfTestEnabled := 0, dataReadyEnabled := 0,
    magSensitivity := some (3 / 2000),
    magBiasX := some (1 / 2), magBiasY := some (1 / 2), magBiasZ := some (1 / 2),
    magScaleX := some 2, magScaleY := some 2, magScaleZ := some 2 }

/-- A driver in SPI mode whose all-ones counter holds `n`. -/
def spiDevice (n : Nat) : Device :=
  { commMode := CommMode.SPI_MODE, address := 10, settings := settingsEx,
    allOnesCounter := n, nonSuccessCounter := 0 }

/-- A driver in I2C mode. -/
def i2cDevice : Device :=
  { commMode := CommMode.I2C_MODE, address := 0x1E, settings := settingsEx,
    allOnesCounter := 0, nonSuccessCounter := 0 }

/-- The bus before any transport call. -/
def bus0 : Bus := { calls := 0, log := [], elapsed := 0 }

/-- An exchange whose SPI transfers return `low` first and `high` afterwards and
whose caller receives `s`. -/
def spiExchange (low high : Nat) (s : mag_status_t) : Exchange :=
  { endTransmission := 0, wireBytes := [], spiBytes := fun i => if i = 0 then low else high,
    stale := fun _ => 0, yielded := s }

/-- An I2C exchange in which `Wire.endTransmission()` returns `code` and the
device then delivers `bytes`. -/
def i2cExchange (code : Nat) (bytes : List Nat) : Exchange :=
  { endTransmission := code, wireBytes := bytes, spiBytes := fun _ => 0,
    stale := fun _ => 0, yielded := MAG_SUCCESS }

/-- The oracle of an I2C bus on which the successive `Wire.endTransmission()`
calls return the codes listed, and `0` after them. -/
def ackEnv (codes : List Nat) : Env :=
  fun n => i2cExchange (codes.getD n 0) []

/-- An SPI bus whose even-numbered transport calls transfer the sample `0` and
whose odd-numbered ones transfer the sample `4`. -/
def swingEnv : Env :=
  fun n => spiExchange (if n % 2 = 0 then 0 else 4) 0 MAG_SUCCESS

/-- An SPI bus on which every raw read transfers the bytes `0x00, 0x80`. -/
def floorEnv : Env :=
  fun _ => spiExchange 0x00 0x80 MAG_SUCCESS

/-- An SPI bus on which every raw read transfers the bytes `0xFF, 0x7F`. -/
def ceilEnv : Env :=
  fun _ => spiExchange 0xFF 0x7F MAG_SUCCESS

/-- A driver in SPI mode that has counted failures and holds coefficients of an
earlier calibration. -/
def usedDevice : Device :=
  { commMode := CommMode.SPI_MODE, address := 10,
    settings := { settingsEx with magBiasX := some (-7), magScaleY := none, magScaleZ := some 0 },
    allOnesCounter := 24000, nonSuccessCounter := 3 }

/-- The bus after 12000 transport calls. -/
def usedBus : Bus := { calls := 12000, log := [], elapsed := 48000 }

/-! ## Lemmas on machine integers -/

theorem zero_lor_int (n : ℤ) : Int.lor 0 n = n := by
  cases n with
  | ofNat n => show ((0 ||| n : ℕ) : ℤ) = n; simp
  | negSucc n =>
    show Int.negSucc (Nat.ldiff n 0) = Int.negSucc n
    congr 1
    simp [Nat.ldiff, Nat.bitwise_zero_right]

/-- OR of a `k`-bit value with a multiple of `2 ^ k` is their sum. -/
theorem lor_low (k : ℕ) :
    ∀ (m n : ℤ), 0 ≤ m → m < 2 ^ k → Int.lor m (2 ^ k * n) = m + 2 ^ k * n := by
  induction k with
  | zero =>
    intro m n h0 h1
    have : m = 0 := by simp at h1; omega
    subst this
    simp [zero_lor_int]
  | succ k ih =>
    intro m n h0 h1
    have hm : m = Int.bit (Int.bodd m) (Int.div2 m) := (Int.bit_decomp m).symm
    have hn : (2 : ℤ) ^ (k + 1) * n = Int.bit false (2 ^ k * n) := by
      rw [Int.bit_val]; simp [pow_succ]; ring
    have hd : Int.div2 m = m / 2 := Int.div2_val m
    have h2 : (0 : ℤ) < 2 ^ k := by positivity
    have hlt : m / 2 < 2 ^ k := by
      rw [pow_succ] at h1; omega
    have hge : 0 ≤ m / 2 := by omega
    rw [hn]
    conv_lhs => rw [hm]
    rw [Int.lor_bit, hd, ih (m / 2) n hge hlt, Bool.or_false, Int.bit_val, Int.bit_val]
    have := Int.bodd_add_div2 m
    rw [hd] at this
    simp only [cond_false] at *
    linarith

theorem toInt16_eq (x : Int) : toInt16 x = (x + 32768) % 65536 - 32768 := by
  simp [toInt16, wrapSigned]

theorem toInt16_range (x : Int) : -32768 ≤ toInt16 x ∧ toInt16 x ≤ 32767 := by
  rw [toInt16_eq]; omega

/-- Narrowing to 16 bits forgets an earlier wrap at any width of at least 16. -/
theorem toInt16_wrapSigned (w : Nat) (hw : 16 ≤ w) (x : Int) :
    toInt16 (wrapSigned w x) = toInt16 x := by
  obtain ⟨k, rfl⟩ : ∃ k, w = 16 + k := ⟨w - 16, by omega⟩
  rw [toInt16_eq, toInt16_eq]
  unfold wrapSigned
  have hM : (2 : ℤ) ^ (16 + k) = 65536 * 2 ^ k := by rw [pow_add]; norm_num
  have hP : ∃ q : ℤ, (2 : ℤ) ^ (16 + k - 1) = 32768 * q ∧ (q = 1 ∨ ∃ r, q = 2 * r) := by
    cases k with
    | zero => exact ⟨1, by norm_num, Or.inl rfl⟩
    | succ j =>
      refine ⟨2 ^ (j + 1), ?_, Or.inr ⟨2 ^ j, by ring⟩⟩
      have : 16 + (j + 1) - 1 = 15 + (j + 1) := by omega
      rw [this, pow_add]; norm_num
  obtain ⟨q, hq, hq2⟩ := hP
  have hdvd : (65536 : ℤ) ∣ 2 ^ (16 + k) := ⟨2 ^ k, hM⟩
  have hmod := Int.emod_emod_of_dvd (x + 2 ^ (16 + k - 1)) hdvd
  rw [hq] at hmod ⊢
  generalize (x + 32768 * q) % 2 ^ (16 + k) = y at hmod ⊢
  rcases hq2 with rfl | ⟨r, rfl⟩ <;> omega

/-- The value `assemble` gives, in terms of the two bytes. -/
theorem assemble_eq (h : Header) (hw : 16 ≤ h.intBits) (buffer : Nat → Nat)
    (h0 : buffer 0 < 256) (h1 : buffer 1 < 256) :
    assemble h buffer =
      if buffer 1 < 128 then (buffer 0 : Int) + 256 * buffer 1
      else (buffer 0 : Int) + 256 * buffer 1 - 65536 := by
  unfold assemble
  rw [toInt16_wrapSigned h.intBits hw]
  have e0 : toInt16 (buffer 0 : Int) = buffer 0 := by rw [toInt16_eq]; omega
  by_cases hb : buffer 1 < 128
  · have e1 : toInt16 ((buffer 1 : Int) * 2 ^ 8) = 2 ^ 8 * (buffer 1 : Int) := by
      rw [toInt16_eq]; norm_num; omega
    rw [e0, e1, lor_low 8 _ _ (by omega) (by norm_num; omega), toInt16_eq, if_pos hb]
    norm_num; omega
  · have e1 : toInt16 ((buffer 1 : Int) * 2 ^ 8) = 2 ^ 8 * ((buffer 1 : Int) - 256) := by
      rw [toInt16_eq]; norm_num; omega
    rw [e0, e1, lor_low 8 _ _ (by omega) (by norm_num; omega), toInt16_eq, if_neg hb]
    norm_num; omega

theorem assemble_range (h : Header) (buffer : Nat → Nat) :
    -32768 ≤ assemble h buffer ∧ assemble h buffer ≤ 32767 :=
  toInt16_range _

/-! ## Lemmas on the transport -/

theorem wireLoop_lt (length : Nat) (bytes : List Nat) :
    ∀ (i : Nat) (output : Nat → Nat), (∀ k, output k < 256) →
      ∀ k, wireLoop length bytes i output k < 256 := by
  induction bytes with
  | nil => intro i output ho k; exact ho k
  | cons c rest ih =>
    intro i output ho k
    unfold wireLoop
    split
    · apply ih
      intro k
      by_cases hk : k = i
      · subst hk; simp; omega
      · simp [Function.update, hk, ho k]
    · exact ho k

theorem spiLoop_succ (h : Header) (x : Exchange) (c : Nat) (output : Nat → Nat) (n : Nat) :
    spiLoop h x c output (n + 1) = spiBody h x (spiLoop h x c output n) n := by
  simp [spiLoop, List.range_succ, List.foldl_append]

theorem spiLoop_lt (h : Header) (x : Exchange) (c : Nat) (output : Nat → Nat)
    (ho : ∀ k, output k < 256) (n : Nat) : ∀ k, (spiLoop h x c output n).2 k < 256 := by
  induction n with
  | zero => intro k; simpa [spiLoop] using ho k
  | succ n ih =>
    intro k
    rw [spiLoop_succ]
    by_cases hk : k = n
    · subst hk; simp [spiBody]; omega
    · simp [spiBody, Function.update, hk, ih k]

/-- The buffer the SPI loop leaves does not depend on the counter it starts from. -/
theorem spiLoop_output_counter (h : Header) (x : Exchange) (c c' : Nat) (output : Nat → Nat)
    (n : Nat) : (spiLoop h x c output n).2 = (spiLoop h x c' output n).2 := by
  induction n with
  | zero => simp [spiLoop]
  | succ n ih => rw [spiLoop_succ, spiLoop_succ]; simp [spiBody, ih]

theorem readRegion_output_lt (h : Header) (env : Env) (d : Device) (b : Bus) (offset : Nat)
    (output : Nat → Nat) (length : Nat) (ho : ∀ k, output k < 256) :
    ∀ k, (readRegion h env d b offset output length).output k < 256 := by
  intro k
  unfold readRegion
  cases d.commMode with
  | I2C_MODE =>
    simp only
    split
    · exact ho k
    · exact wireLoop_lt _ _ _ _ ho k
  | SPI_MODE => exact spiLoop_lt h _ _ _ ho _ k
  | unmatched => exact ho k

@[simp] theorem readRegion_calls (h : Header) (env : Env) (d : Device) (b : Bus) (offset : Nat)
    (output : Nat → Nat) (length : Nat) :
    (readRegion h env d b offset output length).bus.calls = b.calls + 1 := by
  unfold readRegion
  cases d.commMode <;> simp
  split <;> rfl

@[simp] theorem readRegion_log (h : Header) (env : Env) (d : Device) (b : Bus) (offset : Nat)
    (output : Nat → Nat) (length : Nat) :
    (readRegion h env d b offset output length).bus.log
      = b.log ++ [Call.readRegion offset length] := by
  unfold readRegion
  cases d.commMode <;> simp
  split <;> rfl

@[simp] theorem readRegion_elapsed (h : Header) (env : Env) (d : Device) (b : Bus)
    (offset : Nat) (output : Nat → Nat) (length : Nat) :
    (readRegion h env d b offset output length).bus.elapsed = b.elapsed := by
  unfold readRegion
  cases d.commMode <;> simp
  split <;> rfl

@[simp] theorem readRegion_commMode (h : Header) (env : Env) (d : Device) (b : Bus)
    (offset : Nat) (output : Nat → Nat) (length : Nat) :
    (readRegion h env d b offset output length).dev.commMode = d.commMode := by
  unfold readRegion
  cases hm : d.commMode <;> simp [hm]
  split <;> simp [hm]

@[simp] theorem readRegion_settings (h : Header) (env : Env) (d : Device) (b : Bus)
    (offset : Nat) (output : Nat → Nat) (length : Nat) :
    (readRegion h env d b offset output length).dev.settings = d.settings := by
  unfold readRegion
  cases d.commMode <;> simp
  split <;> rfl


/-- The buffer `readRegion` fills depends on the driver through `commMode` only
and on the bus through the call number only. -/
theorem readRegion_output_congr (h : Header) (env : Env) (d d' : Device) (b b' : Bus)
    (offset offset' : Nat) (output : Nat → Nat) (length : Nat)
    (hm : d.commMode = d'.commMode) (hc : b.calls = b'.calls) :
    (readRegion h env d b offset output length).output
      = (readRegion h env d' b' offset' output length).output := by
  unfold readRegion
  rw [← hm, ← hc]
  cases d.commMode with
  | I2C_MODE => simp only; split <;> rfl
  | SPI_MODE => exact spiLoop_output_counter h _ _ _ _ _
  | unmatched => rfl

@[simp] theorem readInt16_calls (h : Header) (env : Env) (d : Device) (b : Bus) (offset : Nat) :
    (readInt16 h env d b offset).bus.calls = b.calls + 1 := by
  simp [readInt16]

@[simp] theorem readInt16_log (h : Header) (env : Env) (d : Device) (b : Bus) (offset : Nat) :
    (readInt16 h env d b offset).bus.log = b.log ++ [Call.readRegion offset 2] := by
  simp [readInt16]

@[simp] theorem readInt16_elapsed (h : Header) (env : Env) (d : Device) (b : Bus)
    (offset : Nat) : (readInt16 h env d b offset).bus.elapsed = b.elapsed := by
  simp [readInt16]

@[simp] theorem readInt16_commMode (h : Header) (env : Env) (d : Device) (b : Bus)
    (offset : Nat) : (readInt16 h env d b offset).dev.commMode = d.commMode := by
  unfold readInt16
  simp only
  split
  · split <;> simp
  · simp

@[simp] theorem readInt16_settings (h : Header) (env : Env) (d : Device) (b : Bus)
    (offset : Nat) : (readInt16 h env d b offset).dev.settings = d.settings := by
  unfold readInt16
  simp only
  split
  · split <;> simp
  · simp

theorem readInt16_value_eq (h : Header) (env : Env) (d : Device) (b : Bus) (offset : Nat) :
    (readInt16 h env d b offset).value
      = assemble h (readRegion h env d b offset (fun i => (env b.calls).stale i % 256) 2).output :=
  rfl

/-- The value of a raw read is the sample of its call number. -/
theorem readInt16_sampleAt (h : Header) (env : Env) (d : Device) (b : Bus) (offset : Nat) :
    (readInt16 h env d b offset).value = sampleAt h env d b.calls := by
  rw [readInt16_value_eq, sampleAt, readInt16_value_eq]
  congr 1
  exact readRegion_output_congr h env d d b _ offset 0 _ 2 rfl rfl

theorem sampleAt_congr (h : Header) (env : Env) (d d' : Device) (n : Nat)
    (hm : d.commMode = d'.commMode) : sampleAt h env d n = sampleAt h env d' n := by
  rw [sampleAt, sampleAt, readInt16_value_eq, readInt16_value_eq]
  congr 1
  exact readRegion_output_congr h env d d' _ _ 0 0 _ 2 hm rfl

theorem sampleAt_range (h : Header) (env : Env) (d : Device) (n : Nat) :
    -32768 ≤ sampleAt h env d n ∧ sampleAt h env d n ≤ 32767 :=
  assemble_range _ _

theorem spiLoop_spiBytes (h : Header) (x x' : Exchange) (c : Nat) (output : Nat → Nat)
    (n : Nat) (hx : x.spiBytes = x'.spiBytes) :
    spiLoop h x c output n = spiLoop h x' c output n := by
  induction n with
  | zero => simp [spiLoop]
  | succ n ih => rw [spiLoop_succ, spiLoop_succ, ih]; simp [spiBody, hx]

theorem readRegion_withYielded (h : Header) (env : Env) (d : Device) (b : Bus) (offset : Nat)
    (output : Nat → Nat) (length : Nat) (n : Nat) (s : mag_status_t) :
    (readRegion h (withYielded env n s) d b offset output length).output
      = (readRegion h env d b offset output length).output := by
  unfold readRegion withYielded
  by_cases hk : b.calls = n
  · cases d.commMode with
    | I2C_MODE => simp [hk]
    | SPI_MODE =>
      simp only [hk, if_true]
      exact congrArg Prod.snd
        (spiLoop_spiBytes h { env n with yielded := s } (env n) _ _ _ rfl)
    | unmatched => rfl
  · simp [hk]

/-- The value of a raw read in terms of the two bytes in its buffer. -/
theorem readInt16_value_bytes (h : Header) (hw : 16 ≤ h.intBits) (env : Env) (d : Device)
    (b : Bus) (offset : Nat) :
    (readInt16 h env d b offset).value
      = (if (readRegion h env d b offset (fun i => (env b.calls).stale i % 256) 2).output 1 < 128
        then ((readRegion h env d b offset (fun i => (env b.calls).stale i % 256) 2).output 0 : Int)
          + 256 * (readRegion h env d b offset (fun i => (env b.calls).stale i % 256) 2).output 1
        else ((readRegion h env d b offset (fun i => (env b.calls).stale i % 256) 2).output 0 : Int)
          + 256 * (readRegion h env d b offset (fun i => (env b.calls).stale i % 256) 2).output 1
          - 65536) := by
  rw [readInt16_value_eq]
  exact assemble_eq h hw _
    (readRegion_output_lt _ _ _ _ _ _ _ (fun k => Nat.mod_lt _ (by norm_num)) 0)
    (readRegion_output_lt _ _ _ _ _ _ _ (fun k => Nat.mod_lt _ (by norm_num)) 1)

/-- The bytes a 2-byte SPI read leaves in the buffer. -/
theorem readRegion_spi_bytes (h : Header) (env : Env) (d : Device) (b : Bus) (offset : Nat)
    (output : Nat → Nat) (hm : d.commMode = CommMode.SPI_MODE) :
    (readRegion h env d b offset output 2).output 0 = (env b.calls).spiBytes 0 % 256
    ∧ (readRegion h env d b offset output 2).output 1 = (env b.calls).spiBytes 1 % 256 := by
  simp [readRegion, hm, spiLoop, spiBody, List.range_succ, Function.update]

/-- The value of a raw read over SPI, in terms of the two bytes transferred. -/
theorem readInt16_spi (h : Header) (hw : 16 ≤ h.intBits) (env : Env) (d : Device) (b : Bus)
    (offset : Nat) (hm : d.commMode = CommMode.SPI_MODE) :
    (readInt16 h env d b offset).value
      = if (env b.calls).spiBytes 1 % 256 < 128
        then (((env b.calls).spiBytes 0 % 256 : Nat) : Int)
          + 256 * (((env b.calls).spiBytes 1 % 256 : Nat) : Int)
        else (((env b.calls).spiBytes 0 % 256 : Nat) : Int)
          + 256 * (((env b.calls).spiBytes 1 % 256 : Nat) : Int) - 65536 := by
  rw [readInt16_value_bytes h hw]
  obtain ⟨e0, e1⟩ := readRegion_spi_bytes h env d b offset
    (fun i => (env b.calls).stale i % 256) hm
  rw [e0, e1]

/-- The samples of a bus on which every SPI transfer pair returns `low`, `high`. -/
theorem sampleAt_spiExchange (h : Header) (hw : 16 ≤ h.intBits) (low high : Nat)
    (s : mag_status_t) (c n : Nat) (hl : low < 256) (hh : high < 256) :
    sampleAt h (fun _ => spiExchange low high s) (spiDevice c) n
      = if high < 128 then (low : Int) + 256 * high else (low : Int) + 256 * high - 65536 := by
  rw [sampleAt, readInt16_spi h hw _ _ _ _ rfl]
  simp [spiExchange, Nat.mod_eq_of_lt hl, Nat.mod_eq_of_lt hh]

/-! ## C1: the value of a raw read -/

/-- C1: with `low` and `high` the two bytes `readRegion` leaves in the buffer of
`readInt16`, the value returned is `low + 256 * high` when `high < 128` and
`low + 256 * high - 65536` otherwise; it lies in `-32768..32767`; it is the same
whatever status the caller of `readRegion` receives; and every value of that
range is returned for some pair of bytes. -/
theorem readInt16_twos_complement (h : Header) (hw : 16 ≤ h.intBits) :
    (∀ (env : Env) (d : Device) (b : Bus) (offset : Nat),
      (readInt16 h env d b offset).value
        = (if (readRegion h env d b offset (fun i => (env b.calls).stale i % 256) 2).output 1 < 128
          then ((readRegion h env d b offset (fun i => (env b.calls).stale i % 256) 2).output 0 : Int)
            + 256 * (readRegion h env d b offset (fun i => (env b.calls).stale i % 256) 2).output 1
          else ((readRegion h env d b offset (fun i => (env b.calls).stale i % 256) 2).output 0 : Int)
            + 256 * (readRegion h env d b offset (fun i => (env b.calls).stale i % 256) 2).output 1
            - 65536)
      ∧ -32768 ≤ (readInt16 h env d b offset).value
      ∧ (readInt16 h env d b offset).value ≤ 32767
      ∧ ∀ s : mag_status_t,
          (readInt16 h (withYielded env b.calls s) d b offset).value
            = (readInt16 h env d b offset).value)
    ∧ (∀ v : Int, -32768 ≤ v → v ≤ 32767 → ∀ (s : mag_status_t) (n : Nat) (offset : Nat),
        (readInt16 h (fun _ => spiExchange (v % 256).toNat (v / 256 % 256).toNat s)
          (spiDevice n) bus0 offset).value = v) := by
  constructor
  · intro env d b offset
    refine ⟨readInt16_value_bytes h hw env d b offset, (assemble_range _ _).1,
      (assemble_range _ _).2, ?_⟩
    intro s
    rw [readInt16_value_eq, readInt16_value_eq, readRegion_withYielded]
    simp [withYielded]
  · intro v hv1 hv2 s n offset
    rw [readInt16_spi h hw _ _ _ _ rfl]
    have e0 : (v % 256).toNat % 256 = (v % 256).toNat := Nat.mod_eq_of_lt (by omega)
    have e1 : (v / 256 % 256).toNat % 256 = (v / 256 % 256).toNat := Nat.mod_eq_of_lt (by omega)
    simp only [spiExchange, if_true, one_ne_zero, if_false, e0, e1]
    split <;> omega

/-- C1, at a concrete input on a 16-bit-`int` target: the bytes `0x00, 0x80`
give `-32768` although the caller is handed a hardware error. -/
theorem readInt16_twos_complement_witness :
    16 ≤ hdr16.intBits
    ∧ (readInt16 hdr16 (fun _ => spiExchange 0x00 0x80 MAG_HW_ERROR) (spiDevice 0) bus0 0x68).value
        = -32768 :=
  ⟨by decide, by
    have hk := (readInt16_twos_complement hdr16 (by decide)).2 (-32768) (by decide) (by decide)
      MAG_HW_ERROR 0 0x68
    simpa using hk⟩

/-! ## C7, C8: the all-ones counter and the all-ones status -/

/-- A 2-byte SPI read whose bytes are both `0xFF` counts twice in `readRegion`,
and `readInt16` counts once more when it is handed the all-ones warning. -/
theorem readInt16_allOnes_counter_steps (h : Header) (env : Env) (d : Device) (b : Bus)
    (offset : Nat) (hm : d.commMode = CommMode.SPI_MODE)
    (h0 : (env b.calls).spiBytes 0 % 256 = 0xFF) (h1 : (env b.calls).spiBytes 1 % 256 = 0xFF) :
    (readRegion h env d b offset (fun i => (env b.calls).stale i % 256) 2).dev.allOnesCounter
        = ((d.allOnesCounter + 1) % 2 ^ h.counterBits + 1) % 2 ^ h.counterBits
    ∧ (readInt16 h env d b offset).dev.allOnesCounter
        = if (env b.calls).yielded = MAG_ALL_ONES_WARNING then
            (((d.allOnesCounter + 1) % 2 ^ h.counterBits + 1) % 2 ^ h.counterBits + 1)
              % 2 ^ h.counterBits
          else ((d.allOnesCounter + 1) % 2 ^ h.counterBits + 1) % 2 ^ h.counterBits := by
  have e : (readRegion h env d b offset (fun i => (env b.calls).stale i % 256)
      2).dev.allOnesCounter
        = ((d.allOnesCounter + 1) % 2 ^ h.counterBits + 1) % 2 ^ h.counterBits := by
    simp [readRegion, hm, spiLoop, spiBody, List.range_succ, h0, h1]
  refine ⟨e, ?_⟩
  unfold readInt16
  simp only
  by_cases hy : (env b.calls).yielded = MAG_ALL_ONES_WARNING
  · simp [hy, e]
  · by_cases hs : (env b.calls).yielded = MAG_SUCCESS
    · simp [hs, e]
    · simp [hy, hs, e]

/-- C7 (defect of the code): starting from an all-ones counter of `0`, a raw
read over SPI whose two bytes are both `0xFF` leaves the counter at `3` when the
caller is handed the all-ones warning and at `2` otherwise, not at `0 + 1`:
`readRegion` alone has already counted once for each byte. -/
theorem readInt16_allOnes_counter_per_byte :
    (readRegion hdr32 (fun _ => spiExchange 0xFF 0xFF MAG_ALL_ONES_WARNING) (spiDevice 0) bus0
        0x68 (fun _ => 0) 2).dev.allOnesCounter = 2
    ∧ (readRegion hdr32 (fun _ => spiExchange 0xFF 0xFF MAG_ALL_ONES_WARNING) (spiDevice 0) bus0
        0x68 (fun _ => 0) 2).status = MAG_ALL_ONES_WARNING
    ∧ ∀ s : mag_status_t,
        (readInt16 hdr32 (fun _ => spiExchange 0xFF 0xFF s) (spiDevice 0) bus0
          0x68).dev.allOnesCounter = (if s = MAG_ALL_ONES_WARNING then 3 else 2)
        ∧ (readInt16 hdr32 (fun _ => spiExchange 0xFF 0xFF s) (spiDevice 0) bus0
          0x68).dev.allOnesCounter ≠ 0 + 1 := by
  refine ⟨by decide, by decide, ?_⟩
  intro s
  cases s <;> simp [readInt16, readRegion, spiLoop, spiBody, spiExchange, spiDevice, hdr32,
    List.range_succ]

/-- C8 (defect of the code): a driver fresh from its constructor (counter `0`)
whose who-am-i read over SPI returns `0xFF` has its all-ones counter at `1`;
with the counter at `1`, a 2-byte SPI read returning `0xFF, 0x00` ends with the
all-ones warning in `status` although the second byte is not `0xFF`, and a
2-byte SPI read returning `0xFF, 0xFF` ends with success in `status`. -/
theorem readRegion_allOnes_status_uses_running_counter :
    (wireUp hdr32 (fun _ => spiExchange 0xFF 0xFF MAG_SUCCESS) (spiDevice 0)
        bus0).dev.allOnesCounter = (spiDevice 1).allOnesCounter
    ∧ (readRegion hdr32 (fun _ => spiExchange 0xFF 0x00 MAG_SUCCESS) (spiDevice 1) bus0
        0x68 (fun _ => 0) 2).status = MAG_ALL_ONES_WARNING
    ∧ (readRegion hdr32 (fun _ => spiExchange 0xFF 0x00 MAG_SUCCESS) (spiDevice 1) bus0
        0x68 (fun _ => 0) 2).output 1 = 0x00
    ∧ (readRegion hdr32 (fun _ => spiExchange 0xFF 0xFF MAG_SUCCESS) (spiDevice 1) bus0
        0x68 (fun _ => 0) 2).status = MAG_SUCCESS
    ∧ (readRegion hdr32 (fun _ => spiExchange 0xFF 0xFF MAG_SUCCESS) (spiDevice 1) bus0
        0x68 (fun _ => 0) 2).output 0 = 0xFF
    ∧ (readRegion hdr32 (fun _ => spiExchange 0xFF 0xFF MAG_SUCCESS) (spiDevice 1) bus0
        0x68 (fun _ => 0) 2).output 1 = 0xFF := by
  decide

/-! ## Lemmas on register writes -/

@[simp] theorem write_dev (env : Env) (d : Device) (b : Bus) (offset data : Nat) :
    (write env d b offset data).dev = d := by
  unfold write
  cases d.commMode <;> rfl

@[simp] theorem write_log (env : Env) (d : Device) (b : Bus) (offset data : Nat) :
    (write env d b offset data).bus.log = b.log ++ [Call.write (offset % 256) (data % 256)] := by
  unfold write
  cases d.commMode <;> rfl

@[simp] theorem write_calls (env : Env) (d : Device) (b : Bus) (offset data : Nat) :
    (write env d b offset data).bus.calls = b.calls + 1 := by
  unfold write
  cases d.commMode <;> rfl

theorem write_status (env : Env) (d : Device) (b : Bus) (offset data : Nat) :
    (write env d b offset data).status = writeStatus env d b.calls := by
  unfold writeStatus write
  cases d.commMode <;> rfl

/-- A write fails exactly on an I2C bus whose `Wire.endTransmission()` returns a
non-zero code, and then with the hardware-error status. -/
theorem writeStatus_eq (env : Env) (d : Device) (n : Nat) :
    writeStatus env d n
      = if d.commMode = CommMode.I2C_MODE ∧ (env n).endTransmission ≠ 0 then MAG_HW_ERROR
        else MAG_SUCCESS := by
  unfold writeStatus write
  cases d.commMode <;> simp

/-! ## C3: the settings write stops at the first failure -/

/-- C3: with `oA`, `oB`, `oC` the statuses of the writes that are transport
calls number `b.calls`, `b.calls + 1`, `b.calls + 2`, `writeSettings` returns
`oA` if it is not success, else `oB` if it is not success, else `oC`; the calls
it makes are the write of register A alone, of A and B, or of A, B and C in the
same three cases; so when the write of B fails, C is not written and the status
is that of B. -/
theorem writeSettings_short_circuit (h : Header) (env : Env) (d : Device) (b : Bus) :
    (writeSettings h env d b).status
        = (if writeStatus env d b.calls ≠ MAG_SUCCESS then writeStatus env d b.calls
          else if writeStatus env d (b.calls + 1) ≠ MAG_SUCCESS
            then writeStatus env d (b.calls + 1)
          else writeStatus env d (b.calls + 2))
    ∧ (writeSettings h env d b).bus.log
        = b.log ++
          (if writeStatus env d b.calls ≠ MAG_SUCCESS then
            [Call.write (h.LIS2MDL_CFG_REG_A % 256) (configA d.settings % 256)]
          else if writeStatus env d (b.calls + 1) ≠ MAG_SUCCESS then
            [Call.write (h.LIS2MDL_CFG_REG_A % 256) (configA d.settings % 256),
              Call.write (h.LIS2MDL_CFG_REG_B % 256) (configB d.settings % 256)]
          else
            [Call.write (h.LIS2MDL_CFG_REG_A % 256) (configA d.settings % 256),
              Call.write (h.LIS2MDL_CFG_REG_B % 256) (configB d.settings % 256),
              Call.write (h.LIS2MDL_CFG_REG_C % 256) (configC d.settings % 256)])
    ∧ (writeStatus env d b.calls = MAG_SUCCESS →
        writeStatus env d (b.calls + 1) ≠ MAG_SUCCESS →
        (writeSettings h env d b).status = writeStatus env d (b.calls + 1)
        ∧ (writeSettings h env d b).bus.log
            = b.log ++ [Call.write (h.LIS2MDL_CFG_REG_A % 256) (configA d.settings % 256),
                Call.write (h.LIS2MDL_CFG_REG_B % 256) (configB d.settings % 256)]) := by
  unfold writeSettings
  simp only [write_status, write_dev, write_calls]
  by_cases hA : writeStatus env d b.calls = MAG_SUCCESS
  · by_cases hB : writeStatus env d (b.calls + 1) = MAG_SUCCESS
    · simp [hA, hB, write_status]
    · simp [hA, hB, write_status]
  · simp [hA, write_status]

/-- C3, at a concrete input: on an I2C bus that acknowledges the first write and
answers the second with code `4`, the status is the hardware error and the log
holds the writes of registers A and B only. -/
theorem writeSettings_short_circuit_witness :
    writeStatus (ackEnv [0, 4, 0]) i2cDevice bus0.calls = MAG_SUCCESS
    ∧ writeStatus (ackEnv [0, 4, 0]) i2cDevice (bus0.calls + 1) ≠ MAG_SUCCESS
    ∧ (writeSettings hdr32 (ackEnv [0, 4, 0]) i2cDevice bus0).status = MAG_HW_ERROR
    ∧ (writeSettings hdr32 (ackEnv [0, 4, 0]) i2cDevice bus0).bus.log
        = [Call.write 0x60 0x80, Call.write 0x61 0x01] :=
  ⟨by decide, by decide,
    ((writeSettings_short_circuit hdr32 (ackEnv [0, 4, 0]) i2cDevice bus0).2.2
      (by decide) (by decide)).1.trans (by decide),
    ((writeSettings_short_circuit hdr32 (ackEnv [0, 4, 0]) i2cDevice bus0).2.2
      (by decide) (by decide)).2.trans (by decide)⟩

/-! ## C4: identity mismatch -/

/-- C4: when the byte read from the who-am-i register differs from the device
identity, `begin` returns the hardware-error status and its only transport call
is that one-byte read: no register is written. -/
theorem begin_identity_mismatch (h : Header) (env : Env) (d : Device) (b : Bus)
    (hne : whoAmIByte h env d b ≠ h.deviceId) :
    (begin h env d b).ret = some MAG_HW_ERROR
    ∧ (begin h env d b).bus.log = b.log ++ [Call.readRegion h.LIS2MDL_WHO_AM_I 1]
    ∧ (begin h env d b).bus.calls = b.calls + 1
    ∧ ∀ offset data : Nat, Call.write offset data ∈ (begin h env d b).bus.log →
        Call.write offset data ∈ b.log := by
  have hs : (wireUp h env d b).status = MAG_HW_ERROR := by
    unfold whoAmIByte at hne
    simp [wireUp, hne]
  have hb : begin h env d b
      = { ret := some MAG_HW_ERROR, dev := (wireUp h env d b).dev,
          bus := (wireUp h env d b).bus } := by
    unfold begin
    simp [hs]
  have hl : (begin h env d b).bus.log = b.log ++ [Call.readRegion h.LIS2MDL_WHO_AM_I 1] := by
    rw [hb]; simp [wireUp, read]
  refine ⟨by rw [hb], hl, by rw [hb]; simp [wireUp, read], ?_⟩
  intro offset data hmem
  rw [hl] at hmem
  simpa using hmem

/-- C4, at a concrete input: an SPI device answering `0x00` where `0x40` is
expected. -/
theorem begin_identity_mismatch_witness :
    whoAmIByte hdr32 (fun _ => spiExchange 0x00 0x00 MAG_SUCCESS) (spiDevice 0) bus0
        ≠ hdr32.deviceId
    ∧ (begin hdr32 (fun _ => spiExchange 0x00 0x00 MAG_SUCCESS) (spiDevice 0) bus0).ret
        = some MAG_HW_ERROR
    ∧ (begin hdr32 (fun _ => spiExchange 0x00 0x00 MAG_SUCCESS) (spiDevice 0) bus0).bus.log
        = [Call.readRegion 0x4F 1] :=
  ⟨by decide,
    (begin_identity_mismatch hdr32 (fun _ => spiExchange 0x00 0x00 MAG_SUCCESS) (spiDevice 0)
      bus0 (by decide)).1,
    (begin_identity_mismatch hdr32 (fun _ => spiExchange 0x00 0x00 MAG_SUCCESS) (spiDevice 0)
      bus0 (by decide)).2.1⟩

/-! ## C2: the calibrated read -/

/-- C2: for stored finite sensitivity `s`, offset `o` and scale `k` of the axis,
each of `readFloatMagX`, `readFloatMagY`, `readFloatMagZ` returns
`(raw * s - o) * k`, where `raw` is the value of the raw read of that axis; with
`raw = 1000`, `s = 0.0015`, `o = 0.5`, `k = 2.0` that is `2.0`. -/
theorem readFloatMag_formula (h : Header) (env : Env) (d : Device) (b : Bus) (s : ℚ)
    (hs : d.settings.magSensitivity = some s) :
    (∀ o k : ℚ, d.settings.magBiasX = some o → d.settings.magScaleX = some k →
      (readFloatMagX h env d b).value
          = some ((((readRawMagX h env d b).value : ℚ) * s - o) * k)
      ∧ ((readRawMagX h env d b).value = 1000 → s = 3 / 2000 → o = 1 / 2 → k = 2 →
          (readFloatMagX h env d b).value = some 2))
    ∧ (∀ o k : ℚ, d.settings.magBiasY = some o → d.settings.magScaleY = some k →
      (readFloatMagY h env d b).value
          = some ((((readRawMagY h env d b).value : ℚ) * s - o) * k)
      ∧ ((readRawMagY h env d b).value = 1000 → s = 3 / 2000 → o = 1 / 2 → k = 2 →
          (readFloatMagY h env d b).value = some 2))
    ∧ (∀ o k : ℚ, d.settings.magBiasZ = some o → d.settings.magScaleZ = some k →
      (readFloatMagZ h env d b).value
          = some ((((readRawMagZ h env d b).value : ℚ) * s - o) * k)
      ∧ ((readRawMagZ h env d b).value = 1000 → s = 3 / 2000 → o = 1 / 2 → k = 2 →
          (readFloatMagZ h env d b).value = some 2)) := by
  refine ⟨?_, ?_, ?_⟩
  · intro o k ho hk
    have e : (readFloatMagX h env d b).value
        = some ((((readRawMagX h env d b).value : ℚ) * s - o) * k) := by
      simp [readFloatMagX, readRawMagX, hs, ho, hk, fmul, fsub, ofInt]
    refine ⟨e, ?_⟩
    intro hr hs' ho' hk'
    rw [e, hr, hs', ho', hk']; norm_num
  · intro o k ho hk
    have e : (readFloatMagY h env d b).value
        = some ((((readRawMagY h env d b).value : ℚ) * s - o) * k) := by
      simp [readFloatMagY, readRawMagY, hs, ho, hk, fmul, fsub, ofInt]
    refine ⟨e, ?_⟩
    intro hr hs' ho' hk'
    rw [e, hr, hs', ho', hk']; norm_num
  · intro o k ho hk
    have e : (readFloatMagZ h env d b).value
        = some ((((readRawMagZ h env d b).value : ℚ) * s - o) * k) := by
      simp [readFloatMagZ, readRawMagZ, hs, ho, hk, fmul, fsub, ofInt]
    refine ⟨e, ?_⟩
    intro hr hs' ho' hk'
    rw [e, hr, hs', ho', hk']; norm_num

theorem readRawMagX_spiExchange_1000 :
    (readRawMagX hdr32 (fun _ => spiExchange 0xE8 0x03 MAG_SUCCESS) (spiDevice 0) bus0).value
      = 1000 := by
  rw [readRawMagX, readInt16_spi hdr32 (by decide) _ _ _ _ rfl]
  simp [spiExchange]

/-- C2, at a concrete input: the bytes `0xE8, 0x03` are the raw sample `1000`,
and with sensitivity `0.0015`, offset `0.5` and scale `2.0` the calibrated X
reading is `2.0`. -/
theorem readFloatMag_formula_witness :
    (spiDevice 0).settings.magSensitivity = some (3 / 2000)
    ∧ (readRawMagX hdr32 (fun _ => spiExchange 0xE8 0x03 MAG_SUCCESS) (spiDevice 0) bus0).value
        = 1000
    ∧ (readFloatMagX hdr32 (fun _ => spiExchange 0xE8 0x03 MAG_SUCCESS) (spiDevice 0)
        bus0).value = some 2 :=
  ⟨rfl, readRawMagX_spiExchange_1000,
    ((readFloatMag_formula hdr32 (fun _ => spiExchange 0xE8 0x03 MAG_SUCCESS) (spiDevice 0) bus0
      (3 / 2000) rfl).1 (1 / 2) 2 rfl rfl).2 readRawMagX_spiExchange_1000 rfl rfl rfl⟩


/-! ## Lemmas on the sampling loop -/

/-- The three raw samples of one pass, as samples of the oracle. -/
theorem calibrateBody_temp (h : Header) (env : Env) (s : Sampling) :
    (readRawMagX h env s.dev s.bus).value = sampleAt h env s.dev (s.bus.calls + 0)
    ∧ (readRawMagY h env (readRawMagX h env s.dev s.bus).dev
        (readRawMagX h env s.dev s.bus).bus).value = sampleAt h env s.dev (s.bus.calls + 1)
    ∧ (readRawMagZ h env
        (readRawMagY h env (readRawMagX h env s.dev s.bus).dev
          (readRawMagX h env s.dev s.bus).bus).dev
        (readRawMagY h env (readRawMagX h env s.dev s.bus).dev
          (readRawMagX h env s.dev s.bus).bus).bus).value
        = sampleAt h env s.dev (s.bus.calls + 2) := by
  refine ⟨?_, ?_, ?_⟩
  · simp [readRawMagX, readInt16_sampleAt]
  · simp only [readRawMagX, readRawMagY, readInt16_sampleAt, readInt16_calls]
    exact sampleAt_congr _ _ _ _ _ (by simp)
  · simp only [readRawMagX, readRawMagY, readRawMagZ, readInt16_sampleAt, readInt16_calls]
    exact sampleAt_congr _ _ _ _ _ (by simp)

theorem calibrateBody_max (h : Header) (env : Env) (s : Sampling) (j : Fin 3) :
    (calibrateBody h env s).rawMagMax j
      = if sampleAt h env s.dev (s.bus.calls + j) > s.rawMagMax j
        then sampleAt h env s.dev (s.bus.calls + j) else s.rawMagMax j := by
  obtain ⟨ex, ey, ez⟩ := calibrateBody_temp h env s
  have e : ∀ t : Fin 3 → Int, (∀ i, t i = sampleAt h env s.dev (s.bus.calls + i)) →
      (if t j > s.rawMagMax j then t j else s.rawMagMax j)
        = if sampleAt h env s.dev (s.bus.calls + j) > s.rawMagMax j
          then sampleAt h env s.dev (s.bus.calls + j) else s.rawMagMax j := by
    intro t ht; rw [ht j]
  refine e _ ?_
  intro i
  obtain ⟨i, hi⟩ := i
  have hi3 : i = 0 ∨ i = 1 ∨ i = 2 := by omega
  rcases hi3 with rfl | rfl | rfl
  · simpa [array3] using ex
  · simpa [array3] using ey
  · simpa [array3] using ez

theorem calibrateBody_min (h : Header) (env : Env) (s : Sampling) (j : Fin 3) :
    (calibrateBody h env s).rawMagMin j
      = if sampleAt h env s.dev (s.bus.calls + j) < s.rawMagMin j
        then sampleAt h env s.dev (s.bus.calls + j) else s.rawMagMin j := by
  obtain ⟨ex, ey, ez⟩ := calibrateBody_temp h env s
  have e : ∀ t : Fin 3 → Int, (∀ i, t i = sampleAt h env s.dev (s.bus.calls + i)) →
      (if t j < s.rawMagMin j then t j else s.rawMagMin j)
        = if sampleAt h env s.dev (s.bus.calls + j) < s.rawMagMin j
          then sampleAt h env s.dev (s.bus.calls + j) else s.rawMagMin j := by
    intro t ht; rw [ht j]
  refine e _ ?_
  intro i
  obtain ⟨i, hi⟩ := i
  have hi3 : i = 0 ∨ i = 1 ∨ i = 2 := by omega
  rcases hi3 with rfl | rfl | rfl
  · simpa [array3] using ex
  · simpa [array3] using ey
  · simpa [array3] using ez

@[simp] theorem calibrateBody_calls (h : Header) (env : Env) (s : Sampling) :
    (calibrateBody h env s).bus.calls = s.bus.calls + 3 := by
  simp [calibrateBody, readRawMagX, readRawMagY, readRawMagZ]

@[simp] theorem calibrateBody_log (h : Header) (env : Env) (s : Sampling) :
    (calibrateBody h env s).bus.log = s.bus.log ++ tripletCalls h 1 := by
  simp [calibrateBody, readRawMagX, readRawMagY, readRawMagZ, tripletCalls]

@[simp] theorem calibrateBody_elapsed (h : Header) (env : Env) (s : Sampling) :
    (calibrateBody h env s).bus.elapsed = s.bus.elapsed + 12 := by
  simp [calibrateBody, readRawMagX, readRawMagY, readRawMagZ]

@[simp] theorem calibrateBody_commMode (h : Header) (env : Env) (s : Sampling) :
    (calibrateBody h env s).dev.commMode = s.dev.commMode := by
  simp [calibrateBody, readRawMagX, readRawMagY, readRawMagZ]

@[simp] theorem calibrateBody_settings (h : Header) (env : Env) (s : Sampling) :
    (calibrateBody h env s).dev.settings = s.dev.settings := by
  simp [calibrateBody, readRawMagX, readRawMagY, readRawMagZ]

/-- The loop of `n + 1` passes is the loop of `n` passes followed by one more. -/
theorem calibrateLoop_succ (h : Header) (env : Env) (n : Nat) :
    ∀ s : Sampling,
      calibrateLoop h env (n + 1) s = calibrateBody h env (calibrateLoop h env n s) := by
  induction n with
  | zero => intro s; rfl
  | succ n ih =>
    intro s
    show calibrateLoop h env (n + 1) (calibrateBody h env s) = _
    rw [ih (calibrateBody h env s)]
    rfl

theorem tripletCalls_succ (h : Header) (n : Nat) :
    tripletCalls h (n + 1) = tripletCalls h n ++ tripletCalls h 1 := by
  induction n with
  | zero => simp [tripletCalls]
  | succ n ih =>
    show [Call.readRegion h.LIS2MDL_OUTX_L_REG 2, Call.readRegion h.LIS2MDL_OUTY_L_REG 2,
        Call.readRegion h.LIS2MDL_OUTZ_L_REG 2] ++ tripletCalls h (n + 1)
      = ([Call.readRegion h.LIS2MDL_OUTX_L_REG 2, Call.readRegion h.LIS2MDL_OUTY_L_REG 2,
        Call.readRegion h.LIS2MDL_OUTZ_L_REG 2] ++ tripletCalls h n) ++ tripletCalls h 1
    rw [ih, List.append_assoc]

theorem tripletCalls_length (h : Header) (n : Nat) : (tripletCalls h n).length = 3 * n := by
  induction n with
  | zero => rfl
  | succ n ih => simp [tripletCalls, ih]; omega

theorem calibrateLoop_calls (h : Header) (env : Env) (s : Sampling) (n : Nat) :
    (calibrateLoop h env n s).bus.calls = s.bus.calls + 3 * n := by
  induction n with
  | zero => rfl
  | succ n ih => rw [calibrateLoop_succ, calibrateBody_calls, ih]; omega

theorem calibrateLoop_log (h : Header) (env : Env) (s : Sampling) (n : Nat) :
    (calibrateLoop h env n s).bus.log = s.bus.log ++ tripletCalls h n := by
  induction n with
  | zero => simp [calibrateLoop, tripletCalls]
  | succ n ih =>
    rw [calibrateLoop_succ, calibrateBody_log, ih, tripletCalls_succ h n, List.append_assoc]

theorem calibrateLoop_elapsed (h : Header) (env : Env) (s : Sampling) (n : Nat) :
    (calibrateLoop h env n s).bus.elapsed = s.bus.elapsed + 12 * n := by
  induction n with
  | zero => rfl
  | succ n ih => rw [calibrateLoop_succ, calibrateBody_elapsed, ih]; omega

theorem calibrateLoop_commMode (h : Header) (env : Env) (s : Sampling) (n : Nat) :
    (calibrateLoop h env n s).dev.commMode = s.dev.commMode := by
  induction n with
  | zero => rfl
  | succ n ih => rw [calibrateLoop_succ, calibrateBody_commMode, ih]

theorem calibrateLoop_settings (h : Header) (env : Env) (s : Sampling) (n : Nat) :
    (calibrateLoop h env n s).dev.settings = s.dev.settings := by
  induction n with
  | zero => rfl
  | succ n ih => rw [calibrateLoop_succ, calibrateBody_settings, ih]

/-- Pass `n` compares the running maximum of axis `j` with the sample of call
`3 * n + j` after the start of the loop. -/
theorem calibrateLoop_max_succ (h : Header) (env : Env) (s : Sampling) (n : Nat) (j : Fin 3) :
    (calibrateLoop h env (n + 1) s).rawMagMax j
      = if sampleAt h env s.dev (s.bus.calls + 3 * n + j) > (calibrateLoop h env n s).rawMagMax j
        then sampleAt h env s.dev (s.bus.calls + 3 * n + j)
        else (calibrateLoop h env n s).rawMagMax j := by
  rw [calibrateLoop_succ, calibrateBody_max, calibrateLoop_calls,
    sampleAt_congr h env _ s.dev _ (calibrateLoop_commMode h env s n)]

theorem calibrateLoop_min_succ (h : Header) (env : Env) (s : Sampling) (n : Nat) (j : Fin 3) :
    (calibrateLoop h env (n + 1) s).rawMagMin j
      = if sampleAt h env s.dev (s.bus.calls + 3 * n + j) < (calibrateLoop h env n s).rawMagMin j
        then sampleAt h env s.dev (s.bus.calls + 3 * n + j)
        else (calibrateLoop h env n s).rawMagMin j := by
  rw [calibrateLoop_succ, calibrateBody_min, calibrateLoop_calls,
    sampleAt_congr h env _ s.dev _ (calibrateLoop_commMode h env s n)]

/-- Two loops fed the same samples from the same extremes end with the same
extremes. -/
theorem calibrateLoop_extremes_congr (h : Header) (env1 env2 : Env) (s1 s2 : Sampling)
    (hmax : s1.rawMagMax = s2.rawMagMax) (hmin : s1.rawMagMin = s2.rawMagMin) (n : Nat)
    (hsame : ∀ k, k < 3 * n →
      sampleAt h env1 s1.dev (s1.bus.calls + k) = sampleAt h env2 s2.dev (s2.bus.calls + k)) :
    (calibrateLoop h env1 n s1).rawMagMax = (calibrateLoop h env2 n s2).rawMagMax
    ∧ (calibrateLoop h env1 n s1).rawMagMin = (calibrateLoop h env2 n s2).rawMagMin := by
  induction n with
  | zero => exact ⟨hmax, hmin⟩
  | succ n ih =>
    obtain ⟨imax, imin⟩ := ih (fun k hk => hsame k (by omega))
    constructor
    · funext j
      have hj := j.isLt
      rw [calibrateLoop_max_succ, calibrateLoop_max_succ, imax, Nat.add_assoc, Nat.add_assoc,
        hsame (3 * n + j) (by omega)]
    · funext j
      have hj := j.isLt
      rw [calibrateLoop_min_succ, calibrateLoop_min_succ, imin, Nat.add_assoc, Nat.add_assoc,
        hsame (3 * n + j) (by omega)]

/-- Bounds on the running extremes after any number of passes from the seeds. -/
theorem calibrateLoop_bounds (h : Header) (env : Env) (d : Device) (b : Bus) (n : Nat)
    (j : Fin 3) :
    -32767 ≤ (calibrateLoop h env n (calibrateInit d b)).rawMagMax j
    ∧ (calibrateLoop h env n (calibrateInit d b)).rawMagMax j ≤ 32767
    ∧ -32768 ≤ (calibrateLoop h env n (calibrateInit d b)).rawMagMin j
    ∧ (calibrateLoop h env n (calibrateInit d b)).rawMagMin j ≤ 32767 := by
  induction n with
  | zero => simp [calibrateLoop, calibrateInit]
  | succ n ih =>
    rw [calibrateLoop_max_succ, calibrateLoop_min_succ]
    have hr := sampleAt_range h env (calibrateInit d b).dev
      ((calibrateInit d b).bus.calls + 3 * n + j)
    split <;> split <;> omega


/-! ## Lemmas on the arithmetic after the loop -/

theorem wrapSigned_eq_self (w : Nat) (x : Int) (hw : 1 ≤ w) (hlo : -(2 ^ (w - 1)) ≤ x)
    (hhi : x < 2 ^ (w - 1)) : wrapSigned w x = x := by
  unfold wrapSigned
  have hp : (2 : ℤ) ^ w = 2 * 2 ^ (w - 1) := by
    conv_lhs => rw [show w = (w - 1) + 1 by omega]
    rw [pow_succ]; ring
  rw [hp, Int.emod_eq_of_lt (by omega) (by omega)]
  omega

theorem two_pow_ge (w k : Nat) (hw : k + 1 ≤ w) : (2 : ℤ) ^ k ≤ 2 ^ (w - 1) :=
  pow_le_pow_right₀ (by norm_num) (by omega)

/-- A value of at most 17 signed bits survives a wrap at any `int` width of at
least 17 bits. -/
theorem wrapSigned_small (w : Nat) (hw : 17 ≤ w) (x : Int) (hlo : -65536 ≤ x)
    (hhi : x ≤ 65535) : wrapSigned w x = x := by
  have hp := two_pow_ge w 16 hw
  norm_num at hp
  exact wrapSigned_eq_self w x (by omega) (by omega) (by omega)

/-- A value of at most 18 signed bits survives a wrap at any width of at least
32 bits. -/
theorem wrapSigned_wide (w : Nat) (hw : 32 ≤ w) (x : Int) (hlo : -131072 ≤ x)
    (hhi : x ≤ 131071) : wrapSigned w x = x := by
  have hp := two_pow_ge w 17 (by omega)
  norm_num at hp
  exact wrapSigned_eq_self w x (by omega) (by omega) (by omega)

theorem toInt32_small (x : Int) (hlo : -131072 ≤ x) (hhi : x ≤ 131071) : toInt32 x = x :=
  wrapSigned_wide 32 (le_refl _) x hlo hhi

/-- C++ division by two, which truncates toward zero, in terms of the floor
division. -/
theorem tdiv_two_eq (x : Int) :
    Int.tdiv x 2 = if 0 ≤ x then x / 2 else -((-x) / 2) := by
  split
  · next hx => exact Int.tdiv_eq_ediv hx (by norm_num)
  · next hx =>
    have h1 : Int.tdiv (-(-x)) 2 = -(Int.tdiv (-x) 2) := Int.neg_tdiv _ _
    rw [neg_neg] at h1
    rw [h1, Int.tdiv_eq_ediv (by omega) (by norm_num)]

/-- State of the sampling loop after the `4000` passes: bounds on the extremes. -/
theorem sampled_bounds (h : Header) (env : Env) (d : Device) (b : Bus) (j : Fin 3) :
    -32767 ≤ (sampled h env d b).rawMagMax j ∧ (sampled h env d b).rawMagMax j ≤ 32767
    ∧ -32768 ≤ (sampled h env d b).rawMagMin j ∧ (sampled h env d b).rawMagMin j ≤ 32767 := by
  unfold sampled
  exact calibrateLoop_bounds h env d b 4000 j

/-- On a target whose `int` has at least 17 bits the bias is the C++ midpoint of
the extremes. -/
theorem rawMagBias_eq (h : Header) (hw : 17 ≤ h.intBits) (env : Env) (d : Device) (b : Bus)
    (j : Fin 3) :
    rawMagBias h (sampled h env d b) j
      = Int.tdiv ((sampled h env d b).rawMagMax j + (sampled h env d b).rawMagMin j) 2 := by
  obtain ⟨h1, h2, h3, h4⟩ := sampled_bounds h env d b j
  unfold rawMagBias
  rw [wrapSigned_small h.intBits hw _ (by omega) (by omega)]
  have t := tdiv_two_eq ((sampled h env d b).rawMagMax j + (sampled h env d b).rawMagMin j)
  exact toInt32_small _ (by split at t <;> omega) (by split at t <;> omega)

/-- On a target whose `int` has at least 17 bits the half range is the C++ half
of the difference of the extremes, and lies in `-32768..32767`. -/
theorem rawMagScale_eq (h : Header) (hw : 17 ≤ h.intBits) (env : Env) (d : Device) (b : Bus)
    (j : Fin 3) :
    rawMagScale h (sampled h env d b) j
        = Int.tdiv ((sampled h env d b).rawMagMax j - (sampled h env d b).rawMagMin j) 2
    ∧ -32768 ≤ rawMagScale h (sampled h env d b) j
    ∧ rawMagScale h (sampled h env d b) j ≤ 32768 := by
  obtain ⟨h1, h2, h3, h4⟩ := sampled_bounds h env d b j
  unfold rawMagScale
  rw [wrapSigned_small h.intBits hw _ (by omega) (by omega)]
  have t := tdiv_two_eq ((sampled h env d b).rawMagMax j - (sampled h env d b).rawMagMin j)
  rw [toInt32_small _ (by split at t <;> omega) (by split at t <;> omega)]
  exact ⟨rfl, by split at t <;> omega, by split at t <;> omega⟩

theorem sampled_settings (h : Header) (env : Env) (d : Device) (b : Bus) :
    (sampled h env d b).dev.settings = d.settings := by
  unfold sampled
  exact calibrateLoop_settings h env (calibrateInit d b) 4000

theorem sampled_commMode (h : Header) (env : Env) (d : Device) (b : Bus) :
    (sampled h env d b).dev.commMode = d.commMode := by
  unfold sampled
  exact calibrateLoop_commMode h env (calibrateInit d b) 4000

/-- The offset `calibrate` stores for axis `j`. -/
theorem calibrate_offset (h : Header) (env : Env) (d : Device) (b : Bus) (reads : Nat)
    (j : Fin 3) :
    (calibrate h env d b reads).1.settings.offset j
      = fmul (ofInt (rawMagBias h (sampled h env d b) j)) d.settings.magSensitivity := by
  obtain ⟨j, hj⟩ := j
  have hj3 : j = 0 ∨ j = 1 ∨ j = 2 := by omega
  rcases hj3 with rfl | rfl | rfl <;>
    simp [calibrate, Settings.offset, array3, sampled_settings]

/-- The scale `calibrate` stores for axis `j`. -/
theorem calibrate_scale (h : Header) (env : Env) (d : Device) (b : Bus) (reads : Nat)
    (j : Fin 3) :
    (calibrate h env d b reads).1.settings.scale j
      = fdiv (avg_rad h (sampled h env d b)) (ofInt (rawMagScale h (sampled h env d b) j)) := by
  obtain ⟨j, hj⟩ := j
  have hj3 : j = 0 ∨ j = 1 ∨ j = 2 := by omega
  rcases hj3 with rfl | rfl | rfl <;>
    simp [calibrate, Settings.scale, array3]

theorem calibrate_bus (h : Header) (env : Env) (d : Device) (b : Bus) (reads : Nat) :
    (calibrate h env d b reads).2 = (sampled h env d b).bus := by
  simp [calibrate]

theorem calibrate_commMode (h : Header) (env : Env) (d : Device) (b : Bus) (reads : Nat) :
    (calibrate h env d b reads).1.commMode = d.commMode := by
  simp [calibrate, sampled_commMode]


/-- The running extremes of axis `j` after `n` passes from the seeds: each bounds
every sample seen, and each is a sample seen or still the seed. -/
theorem calibrateLoop_extremes_spec (h : Header) (env : Env) (d : Device) (b : Bus) (n : Nat)
    (j : Fin 3) :
    (∀ i, i < n →
      sampleAt h env d (b.calls + 3 * i + j)
        ≤ (calibrateLoop h env n (calibrateInit d b)).rawMagMax j)
    ∧ ((calibrateLoop h env n (calibrateInit d b)).rawMagMax j = -32767
      ∨ ∃ i, i < n ∧ (calibrateLoop h env n (calibrateInit d b)).rawMagMax j
          = sampleAt h env d (b.calls + 3 * i + j))
    ∧ (∀ i, i < n →
      (calibrateLoop h env n (calibrateInit d b)).rawMagMin j
        ≤ sampleAt h env d (b.calls + 3 * i + j))
    ∧ ((calibrateLoop h env n (calibrateInit d b)).rawMagMin j = 32767
      ∨ ∃ i, i < n ∧ (calibrateLoop h env n (calibrateInit d b)).rawMagMin j
          = sampleAt h env d (b.calls + 3 * i + j)) := by
  induction n with
  | zero =>
    refine ⟨fun i hi => absurd hi (Nat.not_lt_zero i), Or.inl rfl,
      fun i hi => absurd hi (Nat.not_lt_zero i), Or.inl rfl⟩
  | succ n ih =>
    obtain ⟨a1, a2, a3, a4⟩ := ih
    have emax := calibrateLoop_max_succ h env (calibrateInit d b) n j
    have emin := calibrateLoop_min_succ h env (calibrateInit d b) n j
    have ed : (calibrateInit d b).dev = d := rfl
    have eb : (calibrateInit d b).bus.calls = b.calls := rfl
    rw [ed, eb] at emax emin
    refine ⟨?_, ?_, ?_, ?_⟩
    · intro i hi
      rw [emax]
      rcases Nat.lt_succ_iff_lt_or_eq.mp hi with hlt | rfl
      · have := a1 i hlt
        split <;> omega
      · split <;> omega
    · rw [emax]
      split
      · exact Or.inr ⟨n, Nat.lt_succ_self n, rfl⟩
      · rcases a2 with e | ⟨i, hi, e⟩
        · exact Or.inl e
        · exact Or.inr ⟨i, Nat.lt_succ_of_lt hi, e⟩
    · intro i hi
      rw [emin]
      rcases Nat.lt_succ_iff_lt_or_eq.mp hi with hlt | rfl
      · have := a3 i hlt
        split <;> omega
      · split <;> omega
    · rw [emin]
      split
      · exact Or.inr ⟨n, Nat.lt_succ_self n, rfl⟩
      · rcases a4 with e | ⟨i, hi, e⟩
        · exact Or.inl e
        · exact Or.inr ⟨i, Nat.lt_succ_of_lt hi, e⟩

/-- When every sample of axis `j` is `v`, the running minimum is `v` and the
running maximum is `v`, or the seed `-32767` when `v` lies below it. -/
theorem calibrateLoop_constant_axis (h : Header) (env : Env) (d : Device) (b : Bus) (n : Nat)
    (hn : 0 < n) (j : Fin 3) (v : Int)
    (hv : ∀ i, i < n → sampleAt h env d (b.calls + 3 * i + j) = v) :
    (calibrateLoop h env n (calibrateInit d b)).rawMagMax j = (if v > -32767 then v else -32767)
    ∧ (calibrateLoop h env n (calibrateInit d b)).rawMagMin j = v := by
  obtain ⟨a1, a2, a3, a4⟩ := calibrateLoop_extremes_spec h env d b n j
  have hb := calibrateLoop_bounds h env d b n j
  have hr := sampleAt_range h env d (b.calls + 3 * 0 + j)
  rw [hv 0 hn] at hr
  have m1 := a1 0 hn
  have m3 := a3 0 hn
  rw [hv 0 hn] at m1 m3
  constructor
  · rcases a2 with e | ⟨i, hi, e⟩
    · rw [e] at m1 ⊢
      split <;> omega
    · rw [hv i hi] at e
      rw [e]
      split <;> omega
  · rcases a4 with e | ⟨i, hi, e⟩
    · omega
    · rw [hv i hi] at e
      exact e

/-! ## C5: calibration depends on the sample stream only -/

/-- C5: two runs of `calibrate` whose 12000 raw reads return the same samples,
on drivers with the same sensitivity, store the same offset and the same scale
for every axis, whatever their `reads` arguments, their earlier coefficients,
their counters and their buses; and a run makes exactly the 12000 transport
calls of 4000 sample triplets, with 4000 delays of 12. -/
theorem calibrate_deterministic (h : Header) (env1 env2 : Env) (d1 d2 : Device) (b1 b2 : Bus)
    (reads1 reads2 : Nat)
    (hs : d1.settings.magSensitivity = d2.settings.magSensitivity)
    (hsame : ∀ k, k < 12000 →
      sampleAt h env1 d1 (b1.calls + k) = sampleAt h env2 d2 (b2.calls + k)) :
    (∀ j : Fin 3,
      (calibrate h env1 d1 b1 reads1).1.settings.offset j
          = (calibrate h env2 d2 b2 reads2).1.settings.offset j
      ∧ (calibrate h env1 d1 b1 reads1).1.settings.scale j
          = (calibrate h env2 d2 b2 reads2).1.settings.scale j)
    ∧ (calibrate h env1 d1 b1 reads1).2.calls = b1.calls + 3 * 4000
    ∧ (calibrate h env1 d1 b1 reads1).2.log = b1.log ++ tripletCalls h 4000
    ∧ (calibrate h env1 d1 b1 reads1).2.elapsed = b1.elapsed + 12 * 4000
    ∧ (calibrate h env2 d2 b2 reads2).2.calls = b2.calls + 3 * 4000
    ∧ (calibrate h env2 d2 b2 reads2).2.log = b2.log ++ tripletCalls h 4000 := by
  have hx := calibrateLoop_extremes_congr h env1 env2 (calibrateInit d1 b1) (calibrateInit d2 b2)
    rfl rfl 4000 (fun k hk => hsame k (by omega))
  have hmax : (sampled h env1 d1 b1).rawMagMax = (sampled h env2 d2 b2).rawMagMax := by
    unfold sampled; exact hx.1
  have hmin : (sampled h env1 d1 b1).rawMagMin = (sampled h env2 d2 b2).rawMagMin := by
    unfold sampled; exact hx.2
  have hbias : ∀ j, rawMagBias h (sampled h env1 d1 b1) j = rawMagBias h (sampled h env2 d2 b2) j := by
    intro j; unfold rawMagBias; rw [hmax, hmin]
  have hscale : ∀ j,
      rawMagScale h (sampled h env1 d1 b1) j = rawMagScale h (sampled h env2 d2 b2) j := by
    intro j; unfold rawMagScale; rw [hmax, hmin]
  have havg : avg_rad h (sampled h env1 d1 b1) = avg_rad h (sampled h env2 d2 b2) := by
    unfold avg_rad; rw [hscale 0, hscale 1, hscale 2]
  refine ⟨?_, ?_, ?_, ?_, ?_, ?_⟩
  · intro j
    rw [calibrate_offset, calibrate_offset, calibrate_scale, calibrate_scale, hbias, hscale,
      havg, hs]
    exact ⟨rfl, rfl⟩
  · rw [calibrate_bus]; unfold sampled; exact calibrateLoop_calls h env1 _ 4000
  · rw [calibrate_bus]; unfold sampled; exact calibrateLoop_log h env1 _ 4000
  · rw [calibrate_bus]; unfold sampled; exact calibrateLoop_elapsed h env1 _ 4000
  · rw [calibrate_bus]; unfold sampled; exact calibrateLoop_calls h env2 _ 4000
  · rw [calibrate_bus]; unfold sampled; exact calibrateLoop_log h env2 _ 4000


/-- C5, at a concrete input: a run asked for 100 reads on a fresh driver and a
run asked for 4000 reads on a driver with other counters and other stored
coefficients, later on the same bus, store the same coefficients when the bus
returns the same samples. -/
theorem calibrate_deterministic_witness :
    (∀ j : Fin 3,
      (calibrate hdr32 floorEnv (spiDevice 0) bus0 100).1.settings.offset j
          = (calibrate hdr32 floorEnv usedDevice usedBus 4000).1.settings.offset j
      ∧ (calibrate hdr32 floorEnv (spiDevice 0) bus0 100).1.settings.scale j
          = (calibrate hdr32 floorEnv usedDevice usedBus 4000).1.settings.scale j)
    ∧ (calibrate hdr32 floorEnv (spiDevice 0) bus0 100).2.calls = bus0.calls + 3 * 4000
    ∧ (calibrate hdr32 floorEnv usedDevice usedBus 4000).2.calls = usedBus.calls + 3 * 4000 := by
  have key := calibrate_deterministic hdr32 floorEnv floorEnv (spiDevice 0) usedDevice bus0
    usedBus 100 4000 rfl
    (fun k _ => by
      rw [sampleAt, sampleAt, readInt16_spi hdr32 (by decide) _ _ _ _ rfl,
        readInt16_spi hdr32 (by decide) _ _ _ _ rfl]
      simp only [floorEnv])
  exact ⟨key.1, key.2.1, key.2.2.2.2.1⟩

/-! ## The stored coefficients on a target whose `int` is wider than 16 bits -/

/-- On a target whose `int` has at least 17 bits, with `max` and `min` the
running extremes after the 4000 passes and a finite sensitivity `s`, `calibrate`
stores for axis `j` the offset `((max j + min j) / 2) * s`, the division being
C++ integer division, and, with `half i = (max i - min i) / 2`, the scale
`((half 0 + half 1 + half 2) / 3) / half j` when `half j` is not zero and a
non-finite value when it is. -/
theorem calibrate_coefficients (h : Header) (hw : 17 ≤ h.intBits) (env : Env) (d : Device)
    (b : Bus) (reads : Nat) (s : ℚ) (hs : d.settings.magSensitivity = some s) (j : Fin 3) :
    (calibrate h env d b reads).1.settings.offset j
        = some (((Int.tdiv ((sampled h env d b).rawMagMax j + (sampled h env d b).rawMagMin j) 2
            : Int) : ℚ) * s)
    ∧ (calibrate h env d b reads).1.settings.scale j
        = (if Int.tdiv ((sampled h env d b).rawMagMax j - (sampled h env d b).rawMagMin j) 2 = 0
          then none
          else some
            (((((Int.tdiv ((sampled h env d b).rawMagMax 0 - (sampled h env d b).rawMagMin 0) 2
                : Int) : ℚ)
              + ((Int.tdiv ((sampled h env d b).rawMagMax 1 - (sampled h env d b).rawMagMin 1) 2
                : Int) : ℚ)
              + ((Int.tdiv ((sampled h env d b).rawMagMax 2 - (sampled h env d b).rawMagMin 2) 2
                : Int) : ℚ)) / 3)
              / ((Int.tdiv ((sampled h env d b).rawMagMax j - (sampled h env d b).rawMagMin j) 2
                : Int) : ℚ)))
    ∧ ((∀ i : Fin 3,
          Int.tdiv ((sampled h env d b).rawMagMax i - (sampled h env d b).rawMagMin i) 2 ≠ 0) →
        (calibrate h env d b reads).1.settings.scale j
          = some
            (((((Int.tdiv ((sampled h env d b).rawMagMax 0 - (sampled h env d b).rawMagMin 0) 2
                : Int) : ℚ)
              + ((Int.tdiv ((sampled h env d b).rawMagMax 1 - (sampled h env d b).rawMagMin 1) 2
                : Int) : ℚ)
              + ((Int.tdiv ((sampled h env d b).rawMagMax 2 - (sampled h env d b).rawMagMin 2) 2
                : Int) : ℚ)) / 3)
              / ((Int.tdiv ((sampled h env d b).rawMagMax j - (sampled h env d b).rawMagMin j) 2
                : Int) : ℚ))) := by
  obtain ⟨e0, l0, u0⟩ := rawMagScale_eq h hw env d b 0
  obtain ⟨e1, l1, u1⟩ := rawMagScale_eq h hw env d b 1
  obtain ⟨e2, l2, u2⟩ := rawMagScale_eq h hw env d b 2
  obtain ⟨ej, -, -⟩ := rawMagScale_eq h hw env d b j
  have hsum : avg_rad h (sampled h env d b)
      = some (((rawMagScale h (sampled h env d b) 0 : ℚ)
          + (rawMagScale h (sampled h env d b) 1 : ℚ)
          + (rawMagScale h (sampled h env d b) 2 : ℚ)) / 3) := by
    have hin : wrapSigned (sumBits h)
          (rawMagScale h (sampled h env d b) 0 + rawMagScale h (sampled h env d b) 1)
        = rawMagScale h (sampled h env d b) 0 + rawMagScale h (sampled h env d b) 1 :=
      wrapSigned_wide (sumBits h) (le_max_right _ _) _ (by omega) (by omega)
    unfold avg_rad
    rw [hin, wrapSigned_wide (sumBits h) (le_max_right _ _) _ (by omega) (by omega)]
    simp [fdiv, ofInt]
  have hscale : (calibrate h env d b reads).1.settings.scale j
      = (if Int.tdiv ((sampled h env d b).rawMagMax j - (sampled h env d b).rawMagMin j) 2 = 0
        then none
        else some
          (((((Int.tdiv ((sampled h env d b).rawMagMax 0 - (sampled h env d b).rawMagMin 0) 2
              : Int) : ℚ)
            + ((Int.tdiv ((sampled h env d b).rawMagMax 1 - (sampled h env d b).rawMagMin 1) 2
              : Int) : ℚ)
            + ((Int.tdiv ((sampled h env d b).rawMagMax 2 - (sampled h env d b).rawMagMin 2) 2
              : Int) : ℚ)) / 3)
            / ((Int.tdiv ((sampled h env d b).rawMagMax j - (sampled h env d b).rawMagMin j) 2
              : Int) : ℚ))) := by
    rw [calibrate_scale, hsum, e0, e1, e2, ej]
    simp [fdiv, ofInt]
  refine ⟨?_, hscale, ?_⟩
  · rw [calibrate_offset, rawMagBias_eq h hw, hs]
    simp [fmul, ofInt]
  · intro hne
    rw [hscale, if_neg (hne j)]


theorem swingEnv_sample (n : Nat) :
    sampleAt hdr32 swingEnv (spiDevice 0) n = if n % 2 = 0 then 0 else 4 := by
  rw [sampleAt, readInt16_spi hdr32 (by decide) _ _ _ _ rfl]
  by_cases hn : n % 2 = 0 <;> simp [swingEnv, spiExchange, hn]

/-- On the swinging bus every axis sees both `0` and `4`: the extremes after the
4000 passes are `4` and `0`. -/
theorem swingEnv_extremes (j : Fin 3) :
    (sampled hdr32 swingEnv (spiDevice 0) bus0).rawMagMax j = 4
    ∧ (sampled hdr32 swingEnv (spiDevice 0) bus0).rawMagMin j = 0 := by
  obtain ⟨a1, a2, a3, a4⟩ := calibrateLoop_extremes_spec hdr32 swingEnv (spiDevice 0) bus0 4000 j
  unfold sampled
  have hj := j.isLt
  have s0 := swingEnv_sample (bus0.calls + 3 * 0 + j)
  have s1 := swingEnv_sample (bus0.calls + 3 * 1 + j)
  have m0 := a1 0 (by norm_num)
  have m1 := a1 1 (by norm_num)
  have n0 := a3 0 (by norm_num)
  have n1 := a3 1 (by norm_num)
  rw [s0] at m0 n0
  rw [s1] at m1 n1
  have hc : bus0.calls = 0 := rfl
  constructor
  · rcases a2 with e | ⟨i, -, e⟩
    · rw [e] at m0; split at m0 <;> omega
    · rw [swingEnv_sample] at e
      rw [e] at m0 m1 ⊢
      split at m0 <;> split at m1 <;> split <;> omega
  · rcases a4 with e | ⟨i, -, e⟩
    · rw [e] at n0; split at n0 <;> omega
    · rw [swingEnv_sample] at e
      rw [e] at n0 n1 ⊢
      split at n0 <;> split at n1 <;> split <;> omega

/-- On a 32-bit-`int` target and the swinging bus every half range is `2`, the
stored offset of the X axis is `2 * 0.0015 = 0.003` and its stored scale is
`((2 + 2 + 2) / 3) / 2 = 1`. -/
theorem calibrate_coefficients_swingEnv :
    17 ≤ hdr32.intBits
    ∧ (spiDevice 0).settings.magSensitivity = some (3 / 2000)
    ∧ (∀ i : Fin 3,
        Int.tdiv ((sampled hdr32 swingEnv (spiDevice 0) bus0).rawMagMax i
          - (sampled hdr32 swingEnv (spiDevice 0) bus0).rawMagMin i) 2 ≠ 0)
    ∧ (calibrate hdr32 swingEnv (spiDevice 0) bus0 4000).1.settings.offset 0 = some (3 / 1000)
    ∧ (calibrate hdr32 swingEnv (spiDevice 0) bus0 4000).1.settings.scale 0 = some 1 := by
  have hne : ∀ i : Fin 3,
      Int.tdiv ((sampled hdr32 swingEnv (spiDevice 0) bus0).rawMagMax i
        - (sampled hdr32 swingEnv (spiDevice 0) bus0).rawMagMin i) 2 ≠ 0 := by
    intro i
    rw [(swingEnv_extremes i).1, (swingEnv_extremes i).2]
    decide
  have key := calibrate_coefficients hdr32 (by decide) swingEnv (spiDevice 0) bus0 4000
    (3 / 2000) rfl 0
  refine ⟨by decide, rfl, hne, ?_, ?_⟩
  · rw [key.1, (swingEnv_extremes 0).1, (swingEnv_extremes 0).2]
    have e : Int.tdiv (4 + 0) 2 = 2 := by decide
    rw [e]; norm_num
  · rw [key.2.2 hne, (swingEnv_extremes 0).1, (swingEnv_extremes 0).2, (swingEnv_extremes 1).1,
      (swingEnv_extremes 1).2, (swingEnv_extremes 2).1, (swingEnv_extremes 2).2]
    have e : Int.tdiv (4 - 0) 2 = 2 := by decide
    rw [e]; norm_num

theorem ceilEnv_sample (h : Header) (hw : 16 ≤ h.intBits) (n : Nat) :
    sampleAt h ceilEnv (spiDevice 0) n = 32767 := by
  rw [sampleAt, readInt16_spi h hw _ _ _ _ rfl]
  simp [ceilEnv, spiExchange]

/-! ## C6: the stored coefficients -/

/-- C6 (defect of the code): on a target with a 16-bit `int` and a bus whose
every raw sample is `32767` (bytes `0xFF, 0x7F`), the running extremes of the X
axis are both `32767`, the sum `rawMagMax[0] + rawMagMin[0]`, formed in `int`
before it reaches the `int32_t` local, wraps, the local `rawMagBias[0]` is `-1`
and the stored offset is `-1 * 0.0015`, not `((32767 + 32767) / 2) * 0.0015`. -/
theorem calibrate_offset_overflows_16_bit_int :
    (sampled hdr16 ceilEnv (spiDevice 0) bus0).rawMagMax 0 = 32767
    ∧ (sampled hdr16 ceilEnv (spiDevice 0) bus0).rawMagMin 0 = 32767
    ∧ rawMagBias hdr16 (sampled hdr16 ceilEnv (spiDevice 0) bus0) 0 = -1
    ∧ Int.tdiv (32767 + 32767) 2 = 32767
    ∧ (spiDevice 0).settings.magSensitivity = some (3 / 2000)
    ∧ (calibrate hdr16 ceilEnv (spiDevice 0) bus0 4000).1.settings.offset 0 = some (-3 / 2000)
    ∧ (calibrate hdr16 ceilEnv (spiDevice 0) bus0 4000).1.settings.offset 0
        ≠ some (((Int.tdiv (32767 + 32767) 2 : Int) : ℚ) * (3 / 2000)) := by
  have hc := calibrateLoop_constant_axis hdr16 ceilEnv (spiDevice 0) bus0 4000 (by norm_num) 0
    32767 (fun _ _ => ceilEnv_sample hdr16 (by decide) _)
  have hmax : (sampled hdr16 ceilEnv (spiDevice 0) bus0).rawMagMax 0 = 32767 := by
    unfold sampled; rw [hc.1]; decide
  have hmin : (sampled hdr16 ceilEnv (spiDevice 0) bus0).rawMagMin 0 = 32767 := by
    unfold sampled; exact hc.2
  have hbias : rawMagBias hdr16 (sampled hdr16 ceilEnv (spiDevice 0) bus0) 0 = -1 := by
    unfold rawMagBias
    rw [hmax, hmin]
    decide
  have hmid : Int.tdiv (32767 + 32767) 2 = 32767 := by decide
  have hoff : (calibrate hdr16 ceilEnv (spiDevice 0) bus0 4000).1.settings.offset 0
      = some (-3 / 2000) := by
    rw [calibrate_offset, hbias]
    have hs : (spiDevice 0).settings.magSensitivity = some (3 / 2000) := rfl
    rw [hs]
    simp [fmul, ofInt]
    norm_num
  refine ⟨hmax, hmin, hbias, hmid, rfl, hoff, ?_⟩
  rw [hoff, hmid]
  norm_num

/-! ## C9: an axis without variation -/

/-- C9: when every one of the 4000 raw samples of axis `j` is the same value
`v`, the half range `(max j - min j) / 2` that `calibrate` computes for that axis
is `0`, the local `rawMagScale[j]` is `0`, and the scale stored for the axis is
the non-finite result of a division by zero. -/
theorem calibrate_constant_axis_zero_half_range (h : Header) (hw : 16 ≤ h.intBits) (env : Env)
    (d : Device) (b : Bus) (reads : Nat) (j : Fin 3) (v : Int)
    (hv : ∀ i, i < 4000 → sampleAt h env d (b.calls + 3 * i + j) = v) :
    -32768 ≤ v ∧ v ≤ 32767
    ∧ Int.tdiv ((sampled h env d b).rawMagMax j - (sampled h env d b).rawMagMin j) 2 = 0
    ∧ rawMagScale h (sampled h env d b) j = 0
    ∧ (calibrate h env d b reads).1.settings.scale j = none := by
  have hr := sampleAt_range h env d (b.calls + 3 * 0 + j)
  rw [hv 0 (by norm_num)] at hr
  obtain ⟨emax, emin⟩ := calibrateLoop_constant_axis h env d b 4000 (by norm_num) j v hv
  have hmax : (sampled h env d b).rawMagMax j = (if v > -32767 then v else -32767) := by
    unfold sampled; exact emax
  have hmin : (sampled h env d b).rawMagMin j = v := by
    unfold sampled; exact emin
  have hdiff : (sampled h env d b).rawMagMax j - (sampled h env d b).rawMagMin j = 0
      ∨ (sampled h env d b).rawMagMax j - (sampled h env d b).rawMagMin j = 1 := by
    rw [hmax, hmin]; split <;> omega
  have hp := two_pow_ge h.intBits 15 (by omega)
  norm_num at hp
  have hhalf : Int.tdiv ((sampled h env d b).rawMagMax j - (sampled h env d b).rawMagMin j) 2
      = 0 := by
    rcases hdiff with e | e <;> rw [e] <;> decide
  have hsc : rawMagScale h (sampled h env d b) j = 0 := by
    unfold rawMagScale
    rw [wrapSigned_eq_self h.intBits _ (by omega) (by omega) (by omega), hhalf]
    decide
  refine ⟨hr.1, hr.2, hhalf, hsc, ?_⟩
  rw [calibrate_scale, hsc]
  cases avg_rad h (sampled h env d b) <;> simp [fdiv, ofInt]

theorem floorEnv_sample (h : Header) (hw : 16 ≤ h.intBits) (n : Nat) :
    sampleAt h floorEnv (spiDevice 0) n = -32768 := by
  rw [sampleAt, readInt16_spi h hw _ _ _ _ rfl]
  simp [floorEnv, spiExchange]

/-- C9, at a concrete input: every X sample is `-32768` (the running maximum
stays at its seed `-32767`), and the X scale stored is non-finite. -/
theorem calibrate_constant_axis_zero_half_range_witness :
    16 ≤ hdr16.intBits
    ∧ (∀ i, i < 4000 → sampleAt hdr16 floorEnv (spiDevice 0) (bus0.calls + 3 * i + (0 : Fin 3))
        = -32768)
    ∧ rawMagScale hdr16 (sampled hdr16 floorEnv (spiDevice 0) bus0) 0 = 0
    ∧ (calibrate hdr16 floorEnv (spiDevice 0) bus0 4000).1.settings.scale 0 = none :=
  ⟨by decide, fun _ _ => floorEnv_sample hdr16 (by decide) _,
    (calibrate_constant_axis_zero_half_range hdr16 (by decide) floorEnv (spiDevice 0) bus0 4000 0
      (-32768) (fun _ _ => floorEnv_sample hdr16 (by decide) _)).2.2.2.1,
    (calibrate_constant_axis_zero_half_range hdr16 (by decide) floorEnv (spiDevice 0) bus0 4000 0
      (-32768) (fun _ _ => floorEnv_sample hdr16 (by decide) _)).2.2.2.2⟩

/-! ## C10: the running extremes against the true extremes -/

/-- C10 (defect of the code): on a bus whose every raw sample is `-32768` (bytes
`0x00, 0x80`), the running maximum of the X axis is `-32767` after the first
pass and after all 4000 passes, not the sample `-32768`, while the running
minimum is `-32768`: the seed `-32767` of the maximum lies above the least
`int16_t` value. -/
theorem calibrate_running_max_misses_int16_min :
    sampleAt hdr32 floorEnv (spiDevice 0) (bus0.calls + 3 * 0 + (0 : Fin 3)) = -32768
    ∧ (calibrateLoop hdr32 floorEnv 1 (calibrateInit (spiDevice 0) bus0)).rawMagMax 0 = -32767
    ∧ (calibrateLoop hdr32 floorEnv 1 (calibrateInit (spiDevice 0) bus0)).rawMagMin 0 = -32768
    ∧ (sampled hdr32 floorEnv (spiDevice 0) bus0).rawMagMax 0 = -32767
    ∧ (sampled hdr32 floorEnv (spiDevice 0) bus0).rawMagMin 0 = -32768 := by
  have h1 := calibrateLoop_constant_axis hdr32 floorEnv (spiDevice 0) bus0 1 (by norm_num) 0
    (-32768) (fun _ _ => floorEnv_sample hdr32 (by decide) _)
  have h4000 := calibrateLoop_constant_axis hdr32 floorEnv (spiDevice 0) bus0 4000 (by norm_num) 0
    (-32768) (fun _ _ => floorEnv_sample hdr32 (by decide) _)
  refine ⟨floorEnv_sample hdr32 (by decide) _, ?_, h1.2, ?_, ?_⟩
  · rw [h1.1]; decide
  · unfold sampled; rw [h4000.1]; decide
  · unfold sampled; exact h4000.2

end LIS2MDL
